import Mathlib

/-!
Shallow embedding of the ETF-solver scheduling-and-execution core
(models `Asset`, `Index`, `Order`, and the services `QueueManager`,
`LiquidityAnalyzer`, `BinanceAdapter`, `OrderProcessor`).

Modelling conventions:
* JavaScript numbers are embedded as exact rationals (`ℚ`); queue counters,
  list indices and millisecond timestamps are `Nat`.
* `Date.now()` is passed in explicitly where its value matters (the rate
  window); the wall-clock `createdAt` / `updatedAt` stamps on orders, which no
  computation reads, are omitted.
* `Math.random()` draws (venue fill rate, slippage, the rough per-asset
  liquidity estimate of `getAssetLiquidity`) are supplied as oracle inputs.
* `async`/`await` sequencing carries no semantic content in the modelled
  code paths and is erased.
-/

namespace EtfSolver

/-- Lifecycle status of an order (src/models/Order.js line 22). -/
inductive OrderStatus
  | pending
  | processing
  | filled
  | partially_filled
  | canceled
  | failed
deriving DecidableEq, Repr

/-- The four order kinds (src/models/Order.js). -/
inductive OrderType
  | buy
  | sell
  | cancel
  | rebalance
deriving DecidableEq, Repr

/-- One price level of a venue order book: (price, quantity).
The source stores levels as decimal strings and converts with `parseFloat`;
we keep them as rationals directly. -/
abbrev BookLevel := ℚ × ℚ

/-- A venue order book (BinanceAdapter.getOrderBook result): bids are sorted
descending, asks ascending by the venue; the analyzer walks them in the
given order. -/
structure OrderBook where
  bids : List BookLevel
  asks : List BookLevel
deriving DecidableEq, Repr

/-- Per-asset execution record produced by `BinanceAdapter.executeOrder`
(src/services/BinanceAdapter.js lines 50-81). -/
structure AssetExecution where
  assetId : String
  targetQuantity : ℚ
  filledQuantity : ℚ
  targetPrice : ℚ
  avgPrice : ℚ
  fill : ℚ
  loss : ℚ
deriving DecidableEq, Repr

/-- Result of `BinanceAdapter.executeOrder`
(src/services/BinanceAdapter.js lines 89-100).  Note that the `filled`
field holds `overallFillRate * 100`, a percentage, not a quantity. -/
structure ExecutionResult where
  positionId : String
  assets : List AssetExecution
  totalTargetQuantity : ℚ
  totalFilledQuantity : ℚ
  overallFillRate : ℚ
  filled : ℚ
  loss : ℚ
deriving DecidableEq, Repr

/-- An entry of the order `executionDetails` log.  The source pushes plain
objects; we model each shape of pushed object as a constructor. -/
inductive ExecDetail
  | priceConditionNotMet (currentPrice limitPrice : ℚ)
  | noFillableLiquidity
  | execResult (result : ExecutionResult)
  | errorNote (message : String)
  | canceledInQueue
  | canceledWithVenue (fillPercentage loss : ℚ)
  | cancelSuccess (canceledOrderId : Nat)
deriving DecidableEq, Repr

/-- The order model (src/models/Order.js).  `quantity` and `indexPrice` are
`null` in the source for cancel/rebalance orders and are never read for
those kinds; we store them as plain rationals. -/
structure Order where
  id : Nat
  type : OrderType
  positionId : String
  indexId : String
  quantity : ℚ
  indexPrice : ℚ
  status : OrderStatus
  fillPercentage : ℚ
  loss : ℚ
  executionDetails : List ExecDetail
deriving DecidableEq, Repr

/-- The optional `details` argument of `Order.updateStatus`
(src/models/Order.js lines 35-53). -/
structure StatusDetails where
  fillPercentage : Option ℚ
  loss : Option ℚ
  execution : Option ExecDetail
deriving DecidableEq, Repr

/-- Empty `details` (the JS call sites that pass no details object). -/
def noDetails : StatusDetails := ⟨none, none, none⟩

/-- `Order.updateStatus` (src/models/Order.js lines 35-53): the sole mutation
entry point; overwrites the status, optionally the fill percentage and loss,
and appends an execution-log entry when one is supplied. -/
def Order.updateStatus (o : Order) (status : OrderStatus) (details : StatusDetails) : Order :=
  { o with
    status := status
    fillPercentage := details.fillPercentage.getD o.fillPercentage
    loss := details.loss.getD o.loss
    executionDetails :=
      match details.execution with
      | some e => o.executionDetails ++ [e]
      | none => o.executionDetails }

/-- `Order.isActive` (src/models/Order.js lines 91-93). -/
def Order.isActive (o : Order) : Bool :=
  match o.status with
  | .pending => true
  | .processing => true
  | _ => false

/-- `Order.isComplete` (src/models/Order.js lines 99-101): filled, canceled
or failed; `partially_filled` is not counted as complete. -/
def Order.isComplete (o : Order) : Bool :=
  match o.status with
  | .filled => true
  | .canceled => true
  | .failed => true
  | _ => false

/-- The asset model (src/models/Asset.js): `initialPrice` is the reference
price set at the last rebalance, `currentPrice` the live price. -/
structure Asset where
  id : String
  quantity : ℚ
  initialPrice : ℚ
  currentPrice : ℚ
deriving DecidableEq, Repr

/-- `Asset.getValue` (src/models/Asset.js lines 23-25). -/
def Asset.getValue (a : Asset) : ℚ := a.quantity * a.currentPrice

/-- `Asset.getInitialValue` (src/models/Asset.js lines 31-33). -/
def Asset.getInitialValue (a : Asset) : ℚ := a.quantity * a.initialPrice

/-- `Asset.updatePrice` (src/models/Asset.js lines 39-41). -/
def Asset.updatePrice (a : Asset) (newPrice : ℚ) : Asset :=
  { a with currentPrice := newPrice }

/-- `Asset.rebalance` (src/models/Asset.js lines 48-52): replaces the
quantity and resets both prices to the new basis. -/
def Asset.rebalanceAsset (a : Asset) (newQuantity newPrice : ℚ) : Asset :=
  { a with quantity := newQuantity, initialPrice := newPrice, currentPrice := newPrice }

/-- The index (basket) model (src/models/Index.js).  The `createdAt` /
`lastRebalance` wall-clock stamps, which no modelled computation reads,
are omitted. -/
structure Index where
  id : String
  assets : List Asset
deriving DecidableEq, Repr

/-- `Index.getAsset` (src/models/Index.js lines 43-45). -/
def Index.getAsset (idx : Index) (assetId : String) : Option Asset :=
  idx.assets.find? (fun a => a.id == assetId)

/-- `Index.getCurrentPrice` (src/models/Index.js lines 51-53): the sum of
asset values, recomputed on every call. -/
def Index.getCurrentPrice (idx : Index) : ℚ :=
  idx.assets.foldl (fun total a => total + a.getValue) 0

/-- `Index.getInitialPrice` (src/models/Index.js lines 59-61). -/
def Index.getInitialPrice (idx : Index) : ℚ :=
  idx.assets.foldl (fun total a => total + a.getInitialValue) 0

/-- Entry of the `changedAssets` part of a rebalance report
(src/models/Index.js lines 123-131). -/
structure ChangedAsset where
  asset : Asset
  oldQuantity : ℚ
  newQuantity : ℚ
  change : ℚ
deriving DecidableEq, Repr

/-- The report returned by `Index.rebalance`
(src/models/Index.js lines 117-133). -/
structure RebalanceReport where
  oldPrice : ℚ
  newPrice : ℚ
  priceDifference : ℚ
  addedAssets : List Asset
  removedAssets : List Asset
  changedAssets : List ChangedAsset
deriving DecidableEq, Repr

/-- `Index.rebalance` (src/models/Index.js lines 82-134): replaces the asset
composition wholesale — every new asset is rebuilt as
`new Asset(id, quantity, currentPrice, currentPrice)`, so its reference
(initial) price is reset to its live price — and returns the diff report. -/
def Index.rebalance (idx : Index) (newAssets : List Asset) : Index × RebalanceReport :=
  let oldPrice := idx.getCurrentPrice
  let oldAssets := idx.assets
  let addedAssets := newAssets.filter fun a => !(idx.assets.any (fun o => o.id == a.id))
  let removedAssets := idx.assets.filter fun o => !(newAssets.any (fun a => a.id == o.id))
  let changedAssets := newAssets.filter fun a =>
    match idx.getAsset a.id with
    | some o => o.quantity != a.quantity
    | none => false
  let idx' : Index :=
    { idx with assets := newAssets.map fun a =>
        { id := a.id, quantity := a.quantity
          initialPrice := a.currentPrice, currentPrice := a.currentPrice } }
  let newPrice := idx'.getCurrentPrice
  (idx',
    { oldPrice := oldPrice
      newPrice := newPrice
      priceDifference := newPrice - oldPrice
      addedAssets := addedAssets
      removedAssets := removedAssets
      changedAssets := changedAssets.map fun a =>
        let oldQ : ℚ :=
          match oldAssets.find? (fun oa => oa.id == a.id) with
          | some oa => oa.quantity
          | none => 0
        { asset := a, oldQuantity := oldQ, newQuantity := a.quantity
          change := a.quantity - oldQ } })

/-- `RATE_LIMIT` (src/utils/constants.js): 100 orders per window. -/
def RATE_LIMIT : Nat := 100

/-- `RATE_LIMIT_WINDOW_MS` (src/utils/constants.js): 10 second window. -/
def RATE_LIMIT_WINDOW_MS : Nat := 10000

/-- `MIN_ASSET_PURCHASE` (src/utils/constants.js): 5 dollar minimum notional
per asset. -/
def MIN_ASSET_PURCHASE : ℚ := 5

/-- The four per-type order buffers of the queue manager
(src/services/QueueManager.js lines 9-21). -/
structure Queues where
  buy : List Order
  sell : List Order
  cancel : List Order
  rebalance : List Order
deriving DecidableEq, Repr

/-- Buffer of a given type. -/
def Queues.ofType (q : Queues) : OrderType → List Order
  | .buy => q.buy
  | .sell => q.sell
  | .cancel => q.cancel
  | .rebalance => q.rebalance

/-- Replace the buffer of a given type. -/
def Queues.setType (q : Queues) : OrderType → List Order → Queues
  | .buy, l => { q with buy := l }
  | .sell, l => { q with sell := l }
  | .cancel, l => { q with cancel := l }
  | .rebalance, l => { q with rebalance := l }

/-- `Object.keys(this.queues)` iteration order (constructor insertion
order, src/services/QueueManager.js lines 9-14). -/
def orderTypeKeys : List OrderType := [.buy, .sell, .cancel, .rebalance]

/-- The mutable state of a `QueueManager`
(src/services/QueueManager.js lines 8-27). -/
structure QueueManager where
  queues : Queues
  processing : Queues
  executionHistory : List Order
  lastBatchTime : Nat
  ordersInCurrentBatch : Nat
  isProcessing : Bool
deriving DecidableEq, Repr

/-- Where in a queue manager an order was found: a buffer kind, queued or
processing, and a position.  Locations let the embedding reproduce the
source's in-place mutation of a found order object. -/
inductive OrderLoc
  | inQueue (t : OrderType) (i : Nat)
  | inProcessing (t : OrderType) (i : Nat)
deriving DecidableEq, Repr

/-- Find (index, element) of the first list entry satisfying `p`. -/
def findWithIdx (p : Order → Bool) : List Order → Option (Nat × Order)
  | [] => none
  | o :: rest =>
    if p o then some (0, o)
    else (findWithIdx p rest).map (fun r => (r.1 + 1, r.2))

/-- `QueueManager.getOrderByPositionId` search
(src/services/QueueManager.js lines 49-62), returning the location along
with the order: for each type in key order, the queue buffer is searched
before the processing buffer. -/
def findOrderLocIn (s : QueueManager) (positionId : String) : List OrderType → Option (OrderLoc × Order)
  | [] => none
  | t :: rest =>
    match findWithIdx (fun o => o.positionId == positionId) (s.queues.ofType t) with
    | some r => some (.inQueue t r.1, r.2)
    | none =>
      match findWithIdx (fun o => o.positionId == positionId) (s.processing.ofType t) with
      | some r => some (.inProcessing t r.1, r.2)
      | none => findOrderLocIn s positionId rest

/-- Location-aware form of `getOrderByPositionId`. -/
def QueueManager.findOrderWithLoc (s : QueueManager) (positionId : String) : Option (OrderLoc × Order) :=
  findOrderLocIn s positionId orderTypeKeys

/-- `QueueManager.getOrderByPositionId` (src/services/QueueManager.js
lines 49-62). -/
def QueueManager.getOrderByPositionId (s : QueueManager) (positionId : String) : Option Order :=
  (s.findOrderWithLoc positionId).map (fun r => r.2)

/-- Overwrite the order object at a location (the embedding of mutating a
found order in place). -/
def QueueManager.setAt (s : QueueManager) (loc : OrderLoc) (o : Order) : QueueManager :=
  match loc with
  | .inQueue t i => { s with queues := s.queues.setType t ((s.queues.ofType t).set i o) }
  | .inProcessing t i => { s with processing := s.processing.setType t ((s.processing.ofType t).set i o) }

/-- `QueueManager.removeOrderByPositionId` search over the queue buffers
only, in key order (src/services/QueueManager.js lines 69-80). -/
def removeOrderIn (s : QueueManager) (positionId : String) : List OrderType → QueueManager × Option Order
  | [] => (s, none)
  | t :: rest =>
    match findWithIdx (fun o => o.positionId == positionId) (s.queues.ofType t) with
    | some r =>
      ({ s with queues := s.queues.setType t ((s.queues.ofType t).eraseIdx r.1) }, some r.2)
    | none => removeOrderIn s positionId rest

/-- `QueueManager.removeOrderByPositionId` (src/services/QueueManager.js
lines 69-80): removes the first queued order carrying the position id. -/
def QueueManager.removeOrderByPositionId (s : QueueManager) (positionId : String) : QueueManager × Option Order :=
  removeOrderIn s positionId orderTypeKeys

/-- One step of `QueueManager.completeBatch` (src/services/QueueManager.js
lines 193-199): move the order from its processing buffer to history. -/
def completeOne (s : QueueManager) (o : Order) : QueueManager :=
  match (s.processing.ofType o.type).findIdx? (fun p => p.id == o.id) with
  | some i =>
    { s with processing := s.processing.setType o.type ((s.processing.ofType o.type).eraseIdx i)
             executionHistory := s.executionHistory ++ [o] }
  | none => s

/-- `QueueManager.completeBatch` (src/services/QueueManager.js lines
191-203): moves each completed order from processing to history, then
clears the in-flight flag unconditionally. -/
def QueueManager.completeBatch (s : QueueManager) (completedOrders : List Order) : QueueManager :=
  { completedOrders.foldl completeOne s with isProcessing := false }

/-- The per-asset notional computed by the liquidity analyzer
(src/services/LiquidityAnalyzer.js lines 151-152): asset weight
(asset value / basket price) times order quantity times limit price. -/
def assetNotional (currentPrice quantity targetPrice : ℚ) (asset : Asset) : ℚ :=
  asset.getValue / currentPrice * quantity * targetPrice

/-- The depth walk of `analyzeOrderLiquidity` (src/services/
LiquidityAnalyzer.js lines 173-194): accumulate (fillable quantity, cost
basis) over price levels until the target is reached or depth runs out.
The source's second break (`fillableQty >= assetTargetQty` after a full
level is added) is mirrored even though the first break already catches
that case. -/
def walkFill : List BookLevel → ℚ → ℚ → ℚ → ℚ × ℚ
  | [], _, fillableQty, costBasis => (fillableQty, costBasis)
  | (price, qty) :: rest, target, fillableQty, costBasis =>
    if target ≤ fillableQty + qty then
      (target, costBasis + (target - fillableQty) * price)
    else
      if target ≤ fillableQty + qty then (fillableQty + qty, costBasis + qty * price)
      else walkFill rest target (fillableQty + qty) (costBasis + qty * price)

/-- Per-asset record of `analyzeOrderLiquidity`'s `assetAnalysis`
(src/services/LiquidityAnalyzer.js lines 155-213).  The skip branch of the
source returns an object without target-quantity/price fields; those are
embedded as zeros. -/
structure AssetAnalysis where
  assetId : String
  currentPrice : ℚ
  notional : ℚ
  targetQuantity : ℚ
  fillableQuantity : ℚ
  fillablePercent : ℚ
  averagePrice : ℚ
  slippage : ℚ
  costBasis : ℚ
  skip : Bool
deriving DecidableEq, Repr

/-- Analysis of a single constituent asset
(src/services/LiquidityAnalyzer.js lines 149-214). -/
def analyzeAsset (books : String → OrderBook) (side : OrderType)
    (currentPrice quantity targetPrice : ℚ) (asset : Asset) : AssetAnalysis :=
  let notional := assetNotional currentPrice quantity targetPrice asset
  let assetTargetQty := notional / asset.currentPrice
  if notional < MIN_ASSET_PURCHASE then
    { assetId := asset.id, currentPrice := asset.currentPrice, notional := 0
      targetQuantity := 0, fillableQuantity := 0, fillablePercent := 100
      averagePrice := 0, slippage := 0, costBasis := 0, skip := true }
  else
    let book := books asset.id
    let levels := if side = .sell then book.bids else book.asks
    let walked := walkFill levels assetTargetQty 0 0
    let fillableQty := walked.1
    let costBasis := walked.2
    let fillablePercent := fillableQty / assetTargetQty * 100
    let avgPrice := if 0 < fillableQty then costBasis / fillableQty else 0
    let slippage :=
      if side = .buy then (avgPrice - asset.currentPrice) / asset.currentPrice * 100
      else (asset.currentPrice - avgPrice) / asset.currentPrice * 100
    { assetId := asset.id, currentPrice := asset.currentPrice, notional := notional
      targetQuantity := assetTargetQty, fillableQuantity := fillableQty
      fillablePercent := fillablePercent, averagePrice := avgPrice
      slippage := slippage, costBasis := costBasis, skip := false }

/-- Accumulator of the worst-asset reduce
(src/services/LiquidityAnalyzer.js lines 217-220); its initial value is a
bare `{fillablePercent: 100}` object with no asset id. -/
structure WorstAsset where
  assetId : Option String
  fillablePercent : ℚ
deriving DecidableEq, Repr

/-- One step of the worst-asset reduce (src/services/LiquidityAnalyzer.js
lines 217-220): skipped assets are passed over; otherwise the entry with
the strictly smaller fillable percentage wins. -/
def worstStep (worst : WorstAsset) (current : AssetAnalysis) : WorstAsset :=
  if current.skip then worst
  else if current.fillablePercent < worst.fillablePercent then
    ⟨some current.assetId, current.fillablePercent⟩
  else worst

/-- The worst-asset reduce (src/services/LiquidityAnalyzer.js lines
217-220), starting from the bare `{fillablePercent: 100}` accumulator. -/
def worstOf (analysis : List AssetAnalysis) : WorstAsset :=
  analysis.foldl worstStep ⟨none, 100⟩

/-- A per-asset execution instruction handed to the venue
(src/services/LiquidityAnalyzer.js lines 226-237). -/
structure AssetOrder where
  assetId : String
  quantity : ℚ
  targetPrice : ℚ
  side : OrderType
deriving DecidableEq, Repr

/-- Result of `analyzeOrderLiquidity`
(src/services/LiquidityAnalyzer.js lines 241-251). -/
structure LiquidityResult where
  orderId : Nat
  indexId : String
  side : OrderType
  targetQuantity : ℚ
  fillableQuantity : ℚ
  fillablePercent : ℚ
  worstAsset : Option String
  assetAnalysis : List AssetAnalysis
  assetOrders : List AssetOrder
deriving DecidableEq, Repr

/-- `LiquidityAnalyzer.analyzeOrderLiquidity`
(src/services/LiquidityAnalyzer.js lines 141-252): analyzes each
constituent, takes the worst non-skipped fillable percentage (capped at
100) as the basket-level percentage, and scales every non-skipped asset's
target quantity by it. -/
def analyzeOrderLiquidity (books : String → OrderBook) (order : Order)
    (index : Index) (side : OrderType) : LiquidityResult :=
  let currentPrice := index.getCurrentPrice
  let targetPrice := order.indexPrice
  let quantity := order.quantity
  let assetAnalysis := index.assets.map (analyzeAsset books side currentPrice quantity targetPrice)
  let worst := worstOf assetAnalysis
  let overallFillablePercent := min 100 worst.fillablePercent
  let assetOrders := assetAnalysis.filterMap fun a =>
    if a.skip then none
    else some { assetId := a.assetId, quantity := a.targetQuantity * (overallFillablePercent / 100)
                targetPrice := a.currentPrice, side := side }
  { orderId := order.id, indexId := index.id, side := side
    targetQuantity := quantity
    fillableQuantity := quantity * (overallFillablePercent / 100)
    fillablePercent := overallFillablePercent
    worstAsset := worst.assetId
    assetAnalysis := assetAnalysis
    assetOrders := assetOrders }

/-- `LiquidityAnalyzer.quickLiquidityCheck` (src/services/
LiquidityAnalyzer.js lines 74-113), used only to rank orders.  `liq`
supplies the `getAssetLiquidity` estimate, which in the source is a
`Math.random()` draw.  Returns the worst per-asset fillable percentage. -/
def quickLiquidityCheck (liq : String → ℚ) (order : Order) (index : Index) : ℚ :=
  let currentPrice := index.getCurrentPrice
  if order.type = .buy ∧ order.indexPrice < currentPrice then 0
  else if order.type = .sell ∧ currentPrice < order.indexPrice then 0
  else
    let assetLiquidities := index.assets.map fun asset =>
      let notional := assetNotional currentPrice order.quantity order.indexPrice asset
      if notional < MIN_ASSET_PURCHASE then (100 : ℚ) else liq asset.id
    assetLiquidities.foldl (fun worst current => if current < worst then current else worst) 100

/-- An order tagged for prioritization
(src/services/LiquidityAnalyzer.js lines 24-48). -/
structure RankedOrder where
  order : Order
  type : OrderType
  fillable : ℚ
  notional : ℚ
deriving DecidableEq, Repr

/-- The sort comparator of `prioritizeOrders`
(src/services/LiquidityAnalyzer.js lines 53-61): descending fillable
percentage, then descending notional.  `a` sorts no later than `b`. -/
def priorityBefore (a b : RankedOrder) : Bool :=
  if a.fillable ≠ b.fillable then b.fillable < a.fillable else b.notional ≤ a.notional

/-- Stable insertion into a sorted list. -/
def insertRanked (a : RankedOrder) : List RankedOrder → List RankedOrder
  | [] => [a]
  | b :: l => if priorityBefore a b then a :: b :: l else b :: insertRanked a l

/-- Stable sort by `priorityBefore` (the source uses `Array.sort` with the
comparator above; which stable sorting algorithm runs does not matter to
any modelled property). -/
def sortRanked : List RankedOrder → List RankedOrder
  | [] => []
  | a :: l => insertRanked a (sortRanked l)

/-- `LiquidityAnalyzer.prioritizeOrders`
(src/services/LiquidityAnalyzer.js lines 20-66): attach a quick liquidity
estimate and notional to every order (zero when the index is unknown or
the estimate throws), keep those with positive fillable percentage, sort
by the priority comparator and take the top `limit`. -/
def prioritizeOrders (indices : String → Option Index) (liq : String → ℚ)
    (orders : List (Order × OrderType)) (limit : Nat) : List RankedOrder :=
  if orders.length = 0 then []
  else
    let ordersWithData := orders.map fun p =>
      match indices p.1.indexId with
      | none => { order := p.1, type := p.2, fillable := 0, notional := 0 : RankedOrder }
      | some index =>
        let fillable := quickLiquidityCheck liq p.1 index
        { order := p.1, type := p.2, fillable := fillable
          notional := p.1.quantity * p.1.indexPrice * (fillable / 100) }
    (sortRanked (ordersWithData.filter fun o => decide (0 < o.fillable))).take limit

/-- Removal of one prioritized order from its queue buffer into the
matching processing buffer (src/services/QueueManager.js lines 154-160);
an order no longer found in its queue is left alone. -/
def movePrioritized (s : QueueManager) (po : RankedOrder) : QueueManager :=
  match (s.queues.ofType po.type).findIdx? (fun o => o.id == po.order.id) with
  | some i =>
    { s with queues := s.queues.setType po.type ((s.queues.ofType po.type).eraseIdx i)
             processing := s.processing.setType po.type (s.processing.ofType po.type ++ [po.order]) }
  | none => s

/-- Result of a dispatcher tick: the admitted batch and the new state. -/
structure BatchResult where
  batch : List Order
  state : QueueManager
deriving DecidableEq, Repr

/-- The buy/sell admission stage of `getNextBatch`
(src/services/QueueManager.js lines 135-176): with an analyzer, rank all
queued buys and sells jointly and admit the top of the ranking; without
one, fall back to a FIFO split of half the remaining capacity to buys and
the remainder to sells. -/
def admitBuySell (s : QueueManager) (analyzer : Option (String → ℚ))
    (indices : String → Option Index) (remaining : Nat) : List Order × QueueManager :=
  match analyzer with
  | some liq =>
    let allOrders := s.queues.buy.map (fun o => (o, OrderType.buy))
      ++ s.queues.sell.map (fun o => (o, OrderType.sell))
    let prioritized := prioritizeOrders indices liq allOrders remaining
    (prioritized.map (fun po => po.order), prioritized.foldl movePrioritized s)
  | none =>
    let buys := s.queues.buy.take (remaining / 2)
    let sells := s.queues.sell.take (remaining - buys.length)
    (buys ++ sells,
      { s with
        queues :=
          { s.queues with
            buy := s.queues.buy.drop (remaining / 2)
            sell := s.queues.sell.drop (remaining - buys.length) }
        processing :=
          { s.processing with
            buy := s.processing.buy ++ buys
            sell := s.processing.sell ++ sells } })

/-- The admission stages of `getNextBatch` after the in-flight and
rate-limit gates (src/services/QueueManager.js lines 111-184): drain
cancels up to capacity, then rebalances, then buys/sells; each early
return charges the window counter with the admitted batch and sets the
in-flight flag. -/
def getNextBatchAdmit (s : QueueManager) (analyzer : Option (String → ℚ))
    (indices : String → Option Index) : BatchResult :=
  let cap := RATE_LIMIT - s.ordersInCurrentBatch
  let cancellations := s.queues.cancel.take cap
  let s1 : QueueManager :=
    { s with queues := { s.queues with cancel := s.queues.cancel.drop cap }
             processing := { s.processing with cancel := s.processing.cancel ++ cancellations } }
  let remainingCapacity := cap - cancellations.length
  if remainingCapacity = 0 then
    ⟨cancellations,
      { s1 with ordersInCurrentBatch := s1.ordersInCurrentBatch + cancellations.length
                isProcessing := true }⟩
  else
    let rebalances := s1.queues.rebalance.take remainingCapacity
    let s2 : QueueManager :=
      { s1 with queues := { s1.queues with rebalance := s1.queues.rebalance.drop remainingCapacity }
                processing := { s1.processing with rebalance := s1.processing.rebalance ++ rebalances } }
    let remAfter := remainingCapacity - rebalances.length
    if remAfter = 0 then
      ⟨cancellations ++ rebalances,
        { s2 with ordersInCurrentBatch := s2.ordersInCurrentBatch + (cancellations.length + rebalances.length)
                  isProcessing := true }⟩
    else
      let step := admitBuySell s2 analyzer indices remAfter
      let batch := cancellations ++ rebalances ++ step.1
      ⟨batch,
        { step.2 with ordersInCurrentBatch := step.2.ordersInCurrentBatch + batch.length
                      isProcessing := true }⟩

/-- `QueueManager.getNextBatch` (src/services/QueueManager.js lines
88-185): returns empty while a batch is in flight or while the un-elapsed
window's counter is at capacity; resets the window when it has elapsed;
then admits cancels, rebalances and buys/sells in that order. -/
def QueueManager.getNextBatch (s : QueueManager) (analyzer : Option (String → ℚ))
    (indices : String → Option Index) (now : Nat) : BatchResult :=
  if s.isProcessing then ⟨[], s⟩
  else if now - s.lastBatchTime < RATE_LIMIT_WINDOW_MS ∧ RATE_LIMIT ≤ s.ordersInCurrentBatch then
    ⟨[], s⟩
  else
    getNextBatchAdmit
      (if RATE_LIMIT_WINDOW_MS ≤ now - s.lastBatchTime then
        { s with lastBatchTime := now, ordersInCurrentBatch := 0 }
      else s)
      analyzer indices

/-- `BinanceAdapter.executeOrder` (src/services/BinanceAdapter.js lines
43-109).  The per-asset `Math.random()` draws — the execution rate
(`0.95 + random * 0.05` in the simulation) and the slippage multiplier
(`1 ± random * 0.01`) — are supplied by the `fills` oracle keyed by asset
id.  Note the returned `filled` field is `overallFillRate * 100`: a
percentage, not a filled quantity. -/
def executeOrder (fills : String → ℚ × ℚ) (side : OrderType)
    (assetOrders : List AssetOrder) (positionId : String) : ExecutionResult :=
  let results := assetOrders.map fun assetOrder =>
    let executionRate := (fills assetOrder.assetId).1
    let slippageRate := (fills assetOrder.assetId).2
    let filledQuantity := assetOrder.quantity * executionRate
    let avgPrice := assetOrder.targetPrice * slippageRate
    let idealCost := assetOrder.quantity * assetOrder.targetPrice
    let actualCost := filledQuantity * avgPrice
    let loss := if side = .buy then actualCost - idealCost else idealCost - actualCost
    { assetId := assetOrder.assetId, targetQuantity := assetOrder.quantity
      filledQuantity := filledQuantity, targetPrice := assetOrder.targetPrice
      avgPrice := avgPrice, fill := executionRate * 100, loss := loss : AssetExecution }
  let totalTargetQuantity := (assetOrders.map (fun o => o.quantity)).sum
  let totalFilledQuantity := (results.map (fun r => r.filledQuantity)).sum
  let totalLoss := (results.map (fun r => r.loss)).sum
  let overallFillRate := totalFilledQuantity / totalTargetQuantity
  { positionId := positionId, assets := results
    totalTargetQuantity := totalTargetQuantity
    totalFilledQuantity := totalFilledQuantity
    overallFillRate := overallFillRate * 100
    filled := overallFillRate * 100
    loss := totalLoss }

/-- Result of `BinanceAdapter.cancelOrder` as consumed by the processor
(src/services/BinanceAdapter.js lines 141-148): the partial fill
percentage and loss reported before the cancel, both `Math.random()`
draws in the simulation. -/
structure CancelResult where
  fillPercentage : ℚ
  loss : ℚ
deriving DecidableEq, Repr

/-- Environment of the order processor: the index registry, the order-book
oracle, the venue execution oracle, and an optional venue error (a thrown
`executeOrder` rejection, which the source catches per order). -/
structure ProcessEnv where
  indices : String → Option Index
  books : String → OrderBook
  fills : String → ℚ × ℚ
  venueError : Option String

/-- Result of processing one buy/sell order; the flags record whether the
liquidity analyzer (and with it venue depth) was consulted and whether a
venue execution was attempted. -/
structure BuySellResult where
  order : Order
  liquidityAnalyzed : Bool
  venueExecuted : Bool
deriving DecidableEq, Repr

/-- `OrderProcessor.processBuyOrder` (src/services/OrderProcessor.js lines
130-204).  An unknown index id throws, which `processOrder` catches and
records as `failed`; a limit price below the current basket price
regresses the order to `pending` with a log note before any venue
interaction; zero fillable liquidity likewise regresses to `pending`;
otherwise the fill is computed as `executionResult.filled / quantity * 100`
and the order becomes `filled` (at 100) or `partially_filled`. -/
def processBuyOrder (env : ProcessEnv) (order : Order) : BuySellResult :=
  match env.indices order.indexId with
  | none =>
    ⟨order.updateStatus .failed ⟨none, none, some (.errorNote "Index not found")⟩, false, false⟩
  | some index =>
    let currentPrice := index.getCurrentPrice
    if order.indexPrice < currentPrice then
      ⟨order.updateStatus .pending
        ⟨none, none, some (.priceConditionNotMet currentPrice order.indexPrice)⟩, false, false⟩
    else
      let liquidityResult := analyzeOrderLiquidity env.books order index order.type
      if liquidityResult.fillablePercent = 0 then
        ⟨order.updateStatus .pending ⟨none, none, some .noFillableLiquidity⟩, true, false⟩
      else
        match env.venueError with
        | some msg =>
          ⟨order.updateStatus .failed ⟨none, none, some (.errorNote msg)⟩, true, true⟩
        | none =>
          let executionResult := executeOrder env.fills .buy liquidityResult.assetOrders order.positionId
          let fillPercentage := executionResult.filled / order.quantity * 100
          let loss := executionResult.loss
          if 99.5 ≤ fillPercentage then
            ⟨order.updateStatus .filled
              ⟨some 100, some loss, some (.execResult executionResult)⟩, true, true⟩
          else
            ⟨order.updateStatus .partially_filled
              ⟨some fillPercentage, some loss, some (.execResult executionResult)⟩, true, true⟩

/-- `OrderProcessor.processSellOrder` (src/services/OrderProcessor.js lines
210-285): symmetric to the buy path — a limit price above the current
basket price regresses to `pending`; the analyzer is invoked with side
`sell`. -/
def processSellOrder (env : ProcessEnv) (order : Order) : BuySellResult :=
  match env.indices order.indexId with
  | none =>
    ⟨order.updateStatus .failed ⟨none, none, some (.errorNote "Index not found")⟩, false, false⟩
  | some index =>
    let currentPrice := index.getCurrentPrice
    if currentPrice < order.indexPrice then
      ⟨order.updateStatus .pending
        ⟨none, none, some (.priceConditionNotMet currentPrice order.indexPrice)⟩, false, false⟩
    else
      let liquidityResult := analyzeOrderLiquidity env.books order index .sell
      if liquidityResult.fillablePercent = 0 then
        ⟨order.updateStatus .pending ⟨none, none, some .noFillableLiquidity⟩, true, false⟩
      else
        match env.venueError with
        | some msg =>
          ⟨order.updateStatus .failed ⟨none, none, some (.errorNote msg)⟩, true, true⟩
        | none =>
          let executionResult := executeOrder env.fills .sell liquidityResult.assetOrders order.positionId
          let fillPercentage := executionResult.filled / order.quantity * 100
          let loss := executionResult.loss
          if 99.5 ≤ fillPercentage then
            ⟨order.updateStatus .filled
              ⟨some 100, some loss, some (.execResult executionResult)⟩, true, true⟩
          else
            ⟨order.updateStatus .partially_filled
              ⟨some fillPercentage, some loss, some (.execResult executionResult)⟩, true, true⟩

/-- Environment of `processCancelOrder`: the index registry and the
outcome the venue's cancel endpoint would report (`.error` for a thrown
`VenueError`). -/
structure CancelEnv where
  indices : String → Option Index
  venueCancel : Except String CancelResult

/-- Outcome of `processCancelOrder`: the updated queue-manager state, the
cancel order itself, the target order after any mutation, and whether the
venue's cancel endpoint was invoked. -/
structure CancelOutcome where
  state : QueueManager
  order : Order
  target : Option Order
  venueCancelCalled : Bool
deriving DecidableEq, Repr

/-- `OrderProcessor.processCancelOrder` (src/services/OrderProcessor.js
lines 291-373).  Resolve the target by position id (not found → `failed`),
reject completed targets, cancel still-`pending` targets by removing them
from the queue with no venue call, cancel `processing` targets through the
venue applying its reported partial fill and loss, and otherwise (for a
target in any other state) return the cancel order unchanged.  The
source mutates the found target object in place; a pending target found
in a queue is the same object `removeOrderByPositionId` removes, while a
pending target found in a processing buffer stays there and is updated at
its location. -/
def processCancelOrder (env : CancelEnv) (s : QueueManager) (order : Order) : CancelOutcome :=
  match s.findOrderWithLoc order.positionId with
  | none =>
    ⟨s, order.updateStatus .failed ⟨none, none, some (.errorNote "Order to cancel not found")⟩,
      none, false⟩
  | some (loc, orderToCancel) =>
    if orderToCancel.isComplete then
      ⟨s, order.updateStatus .failed ⟨none, none, some (.errorNote "Order already completed")⟩,
        some orderToCancel, false⟩
    else if orderToCancel.status = .pending then
      let removed := s.removeOrderByPositionId order.positionId
      let canceledTarget := orderToCancel.updateStatus .canceled ⟨none, none, some .canceledInQueue⟩
      let s' :=
        match loc with
        | .inQueue _ _ => removed.1
        | .inProcessing t i => removed.1.setAt (.inProcessing t i) canceledTarget
      ⟨s', order.updateStatus .filled ⟨none, none, some (.cancelSuccess orderToCancel.id)⟩,
        some canceledTarget, false⟩
    else if orderToCancel.status = .processing then
      match env.indices orderToCancel.indexId with
      | none =>
        ⟨s, order.updateStatus .failed ⟨none, none, some (.errorNote "Index not found")⟩,
          some orderToCancel, false⟩
      | some _ =>
        match env.venueCancel with
        | .error msg =>
          ⟨s, order.updateStatus .failed ⟨none, none, some (.errorNote msg)⟩,
            some orderToCancel, true⟩
        | .ok cancelResult =>
          let canceledTarget := orderToCancel.updateStatus .canceled
            ⟨some cancelResult.fillPercentage, some cancelResult.loss,
              some (.canceledWithVenue cancelResult.fillPercentage cancelResult.loss)⟩
          ⟨s.setAt loc canceledTarget,
            order.updateStatus .filled ⟨none, none, some (.cancelSuccess orderToCancel.id)⟩,
            some canceledTarget, true⟩
    else
      ⟨s, order, some orderToCancel, false⟩

/-- Well-typed queue buffers: each buffer of the queue manager holds only
orders of its own kind.  `queueOrder` (src/services/QueueManager.js lines
33-42) pushes an order into the buffer named by its type, so every
reachable state satisfies this. -/
def QueuesWellTyped (s : QueueManager) : Prop :=
  (∀ o ∈ s.queues.buy, o.type = OrderType.buy) ∧
  (∀ o ∈ s.queues.sell, o.type = OrderType.sell) ∧
  (∀ o ∈ s.queues.cancel, o.type = OrderType.cancel) ∧
  (∀ o ∈ s.queues.rebalance, o.type = OrderType.rebalance)

/-- Stated from the spec's words, for comparison with the source fold: the
minimum of a list of percentages, 100 when the list is empty. -/
def minimumOr100 : List ℚ → ℚ
  | [] => 100
  | [p] => p
  | p :: q :: ps => min p (minimumOr100 (q :: ps))

/-- Empty queue buffers. -/
def emptyQueues : Queues := ⟨[], [], [], []⟩

/-- A fresh queue-manager state at time 0 (the constructor,
src/services/QueueManager.js lines 8-27). -/
def freshQueueManager : QueueManager :=
  { queues := emptyQueues, processing := emptyQueues, executionHistory := []
    lastBatchTime := 0, ordersInCurrentBatch := 0, isProcessing := false }

/-- A pending buy order for scenario runs. -/
def mkBuyOrder (i : Nat) : Order :=
  { id := i, type := .buy, positionId := toString i, indexId := "idx"
    quantity := 1, indexPrice := 30, status := .pending
    fillPercentage := 0, loss := 0, executionDetails := [] }

/-- An empty index registry. -/
def noIndices : String → Option Index := fun _ => none

/-- Scenario C start state: 150 queued buy orders, empty sell queue,
window capacity `RATE_LIMIT = 100`. -/
def scenarioCState : QueueManager :=
  { freshQueueManager with
    queues := { emptyQueues with buy := (List.range 150).map mkBuyOrder } }

/-- Scenario C, first dispatcher tick (no estimator supplied). -/
def scenarioCTick1 : BatchResult := scenarioCState.getNextBatch none noIndices 0

/-- Scenario C, second tick after completing the first batch, taken after
the window has rolled over. -/
def scenarioCTick2 : BatchResult :=
  (scenarioCTick1.state.completeBatch scenarioCTick1.batch).getNextBatch none noIndices 10000

/-- Scenario C, third tick after the next rollover. -/
def scenarioCTick3 : BatchResult :=
  (scenarioCTick2.state.completeBatch scenarioCTick2.batch).getNextBatch none noIndices 20000

/-- A queue-manager state with a batch in flight. -/
def inFlightState : QueueManager := { freshQueueManager with isProcessing := true }

/-- Single-asset index used for the fill-percentage evaluation: one unit
of asset A at price 1, so the basket price is 1. -/
def c2Index : Index := ⟨"i", [⟨"A", 1, 1, 1⟩]⟩

/-- A triggered buy for 10 baskets at limit price 1 (equal to the basket
price), mid-processing. -/
def c2Order : Order :=
  { id := 1, type := .buy, positionId := "p", indexId := "i"
    quantity := 10, indexPrice := 1, status := .processing
    fillPercentage := 0, loss := 0, executionDetails := [] }

/-- Ample depth at price 1 on both sides. -/
def c2Books : String → OrderBook := fun _ => ⟨[(1, 50)], [(1, 50)]⟩

/-- Venue oracle: every asset order fills at rate 9/10 with no slippage,
matching the repository's own unit-test mock (totalTargetQuantity 10,
totalFilledQuantity 9, `filled` = 90). -/
def c2Fills : String → ℚ × ℚ := fun _ => (9 / 10, 1)

/-- Processor environment for the fill-percentage evaluation. -/
def c2Env : ProcessEnv :=
  ⟨fun i => if i = "i" then some c2Index else none, c2Books, c2Fills, none⟩

/-- A pending buy order sitting in the buy queue, targeted by a cancel. -/
def c7Target : Order :=
  { id := 2, type := .buy, positionId := "pos", indexId := "i"
    quantity := 1, indexPrice := 1, status := .pending
    fillPercentage := 0, loss := 0, executionDetails := [] }

/-- The cancel instruction for position `pos`, already marked processing
by `processOrder`. -/
def c7Cancel : Order :=
  { id := 3, type := .cancel, positionId := "pos", indexId := ""
    quantity := 0, indexPrice := 0, status := .processing
    fillPercentage := 0, loss := 0, executionDetails := [] }

/-- State holding the pending target in the buy queue. -/
def c7State : QueueManager :=
  { freshQueueManager with queues := { emptyQueues with buy := [c7Target] } }

/-- Cancel environment whose venue reports a 20% partial fill with loss 3. -/
def c7Env : CancelEnv := ⟨fun _ => some ⟨"i", []⟩, .ok ⟨20, 3⟩⟩

/-- The same target mid-execution (status processing, held in the
processing buffer). -/
def c7TargetP : Order := { c7Target with id := 4, status := .processing }

/-- State holding the processing target in the buy processing buffer. -/
def c7StateP : QueueManager :=
  { freshQueueManager with processing := { emptyQueues with buy := [c7TargetP] } }

/-- Index with one asset: quantity 1 at price 10, so basket price 10. -/
def c8Index : Index := ⟨"i", [⟨"A", 1, 10, 10⟩]⟩

/-- Processor environment around `c8Index`. -/
def c8Env : ProcessEnv :=
  ⟨fun _ => some c8Index, fun _ => ⟨[(10, 5)], [(10, 5)]⟩, fun _ => (1, 1), none⟩

/-- A buy with limit 5, strictly below the basket price 10. -/
def c8Buy : Order :=
  { id := 5, type := .buy, positionId := "b", indexId := "i"
    quantity := 1, indexPrice := 5, status := .processing
    fillPercentage := 0, loss := 0, executionDetails := [] }

/-- A sell with limit 15, strictly above the basket price 10. -/
def c8Sell : Order := { c8Buy with id := 6, type := .sell, positionId := "s", indexPrice := 15 }

/-- A buy with limit exactly the basket price 10. -/
def c8BuyEq : Order := { c8Buy with id := 7, positionId := "e", indexPrice := 10 }

/-- A partially filled buy order, targeted by a cancel. -/
def c10Target : Order := { c7Target with id := 8, status := .partially_filled }

/-- State holding the partially filled target in the buy queue. -/
def c10State : QueueManager :=
  { freshQueueManager with queues := { emptyQueues with buy := [c10Target] } }

/-! ## Theorems -/

/-- C6: for every rebalance execution on a basket, immediately after the
rebalance commits, every asset in the basket has its reference (initial)
price equal to its live (current) price. -/
theorem C6_rebalance_resets_reference_price (idx : Index) (newAssets : List Asset) :
    ∀ a ∈ (idx.rebalance newAssets).1.assets, a.initialPrice = a.currentPrice := by
  intro a ha
  simp only [Index.rebalance, List.mem_map] at ha
  obtain ⟨b, -, rfl⟩ := ha
  rfl

/-- C6 witness: rebalancing a concrete one-asset basket onto a new
composition leaves the (unique) new asset with reference price equal to
live price. -/
theorem C6_rebalance_resets_reference_price_witness :
    (⟨"B", 5, 7, 7⟩ : Asset).initialPrice = (⟨"B", 5, 7, 7⟩ : Asset).currentPrice :=
  C6_rebalance_resets_reference_price ⟨"i", [⟨"A", 1, 2, 3⟩]⟩ [⟨"B", 5, 6, 7⟩]
    ⟨"B", 5, 7, 7⟩ (by decide)

/-- C10: a cancel whose target is `partially_filled` reaches no resolution
branch of `processCancelOrder`: the target is not complete by
`isComplete`, yet neither pending nor processing, so the cancel order is
returned unchanged — still in status `processing` as set on batch entry —
with no venue call and no state change. -/
theorem C10_partially_filled_target_unresolved (env : CancelEnv) (s : QueueManager)
    (order target : Order) (loc : OrderLoc)
    (hfind : s.findOrderWithLoc order.positionId = some (loc, target))
    (ht : target.status = .partially_filled)
    (horder : order.status = .processing) :
    target.isComplete = false ∧
    processCancelOrder env s order = ⟨s, order, some target, false⟩ ∧
    (processCancelOrder env s order).order.status = .processing := by
  have hc : target.isComplete = false := by
    simp only [Order.isComplete, ht]
  have hmain : processCancelOrder env s order = ⟨s, order, some target, false⟩ := by
    simp only [processCancelOrder, hfind, hc, ht]
    simp
  exact ⟨hc, hmain, by rw [hmain, horder]⟩

/-- C10 witness: the concrete partially filled target in the buy queue. -/
theorem C10_partially_filled_target_unresolved_witness :
    c10Target.isComplete = false ∧
    processCancelOrder c7Env c10State c7Cancel = ⟨c10State, c7Cancel, some c10Target, false⟩ ∧
    (processCancelOrder c7Env c10State c7Cancel).order.status = .processing :=
  C10_partially_filled_target_unresolved c7Env c10State c7Cancel c10Target
    (.inQueue .buy 0) (by decide) (by decide) (by decide)

/-- C4 counterexample: `completeBatch` with an empty list is not a no-op
on the queue manager's state — on a state with a batch in flight it
clears the in-flight flag, yielding a different state. -/
theorem C4_completeBatch_empty_not_noop :
    inFlightState.isProcessing = true ∧
    (inFlightState.completeBatch []).isProcessing = false ∧
    inFlightState.completeBatch [] ≠ inFlightState := by
  decide

/-- C4 amended: `completeBatch` with an empty list leaves the queues,
processing buffers, history and window counters unchanged but always
clears the in-flight flag; and `getNextBatch` while a batch is in flight
returns an empty batch and leaves the state unchanged. -/
theorem C4_completeBatch_nextBatch_idempotence :
    (∀ s : QueueManager, s.completeBatch [] = { s with isProcessing := false }) ∧
    (∀ (s : QueueManager) (analyzer : Option (String → ℚ))
      (indices : String → Option Index) (now : Nat),
      s.isProcessing = true → s.getNextBatch analyzer indices now = ⟨[], s⟩) := by
  constructor
  · intro s
    rfl
  · intro s analyzer indices now h
    simp only [QueueManager.getNextBatch, h, if_true]

/-- C4 witness: the amended statement evaluated on the concrete in-flight
state. -/
theorem C4_completeBatch_nextBatch_idempotence_witness :
    inFlightState.completeBatch [] = { inFlightState with isProcessing := false } ∧
    inFlightState.getNextBatch none noIndices 0 = ⟨[], inFlightState⟩ :=
  ⟨C4_completeBatch_nextBatch_idempotence.1 inFlightState,
    C4_completeBatch_nextBatch_idempotence.2 inFlightState none noIndices 0 rfl⟩

/-- C2 evaluation at the failing input: the venue executes the plan for
`c2Order` (target quantity 10) filling quantity 9, so the claim's fill
percentage — venue filled quantity / target quantity × 100 — is 90,
below the 99.5 threshold; but the code divides the venue's `filled`
percentage field by the quantity, obtains 900, and marks the order
`filled` at 100 instead of `partially_filled` at 90. -/
theorem C2_fill_percentage_divergence :
    (executeOrder c2Fills .buy
        (analyzeOrderLiquidity c2Books c2Order c2Index .buy).assetOrders
        "p").totalFilledQuantity / c2Order.quantity * 100 = 90 ∧
    ¬(99.5 ≤ (executeOrder c2Fills .buy
        (analyzeOrderLiquidity c2Books c2Order c2Index .buy).assetOrders
        "p").totalFilledQuantity / c2Order.quantity * 100) ∧
    (executeOrder c2Fills .buy
        (analyzeOrderLiquidity c2Books c2Order c2Index .buy).assetOrders
        "p").filled / c2Order.quantity * 100 = 900 ∧
    (processBuyOrder c2Env c2Order).order.status = .filled ∧
    (processBuyOrder c2Env c2Order).order.fillPercentage = 100 := by
  refine ⟨?_, ?_, ?_, ?_, ?_⟩ <;>
    norm_num [processBuyOrder, executeOrder, c2Env, c2Order, c2Index, c2Books, c2Fills,
      Index.getCurrentPrice, Asset.getValue, Order.updateStatus,
      analyzeOrderLiquidity, analyzeAsset, assetNotional, walkFill, worstOf, worstStep,
      MIN_ASSET_PURCHASE, List.filterMap_cons, List.filterMap_nil]

/-- C8: a buy whose limit price is strictly below the current basket
price regresses to `pending` with a log note and neither consults the
liquidity analyzer (venue depth) nor executes; a sell whose limit is
strictly above the current price does the same; a buy whose limit equals
the current price passes the trigger and proceeds to liquidity
analysis. -/
theorem C8_untriggered_orders_regress (env : ProcessEnv) (order : Order) (index : Index)
    (hidx : env.indices order.indexId = some index) :
    (order.type = .buy → order.indexPrice < index.getCurrentPrice →
      (processBuyOrder env order).order.status = .pending ∧
      (processBuyOrder env order).order.executionDetails =
        order.executionDetails ++ [.priceConditionNotMet index.getCurrentPrice order.indexPrice] ∧
      (processBuyOrder env order).liquidityAnalyzed = false ∧
      (processBuyOrder env order).venueExecuted = false) ∧
    (order.type = .sell → index.getCurrentPrice < order.indexPrice →
      (processSellOrder env order).order.status = .pending ∧
      (processSellOrder env order).order.executionDetails =
        order.executionDetails ++ [.priceConditionNotMet index.getCurrentPrice order.indexPrice] ∧
      (processSellOrder env order).liquidityAnalyzed = false ∧
      (processSellOrder env order).venueExecuted = false) ∧
    (order.type = .buy → order.indexPrice = index.getCurrentPrice →
      (processBuyOrder env order).liquidityAnalyzed = true) := by
  refine ⟨fun _ hlt => ?_, fun _ hgt => ?_, fun _ heq => ?_⟩
  · simp [processBuyOrder, hidx, hlt, Order.updateStatus]
  · simp [processSellOrder, hidx, hgt, Order.updateStatus]
  · have hnlt : ¬ order.indexPrice < index.getCurrentPrice := by
      rw [heq]; exact lt_irrefl _
    simp only [processBuyOrder, hidx, hnlt, if_false]
    split
    · rfl
    · split
      · rfl
      · split <;> rfl

/-- C8 witness: the concrete untriggered buy (limit 5 against basket
price 10), untriggered sell (limit 15), and exactly-at-price buy
(limit 10). -/
theorem C8_untriggered_orders_regress_witness :
    ((processBuyOrder c8Env c8Buy).order.status = .pending ∧
      (processBuyOrder c8Env c8Buy).order.executionDetails =
        c8Buy.executionDetails ++ [.priceConditionNotMet c8Index.getCurrentPrice c8Buy.indexPrice] ∧
      (processBuyOrder c8Env c8Buy).liquidityAnalyzed = false ∧
      (processBuyOrder c8Env c8Buy).venueExecuted = false) ∧
    ((processSellOrder c8Env c8Sell).order.status = .pending ∧
      (processSellOrder c8Env c8Sell).order.executionDetails =
        c8Sell.executionDetails ++ [.priceConditionNotMet c8Index.getCurrentPrice c8Sell.indexPrice] ∧
      (processSellOrder c8Env c8Sell).liquidityAnalyzed = false ∧
      (processSellOrder c8Env c8Sell).venueExecuted = false) ∧
    (processBuyOrder c8Env c8BuyEq).liquidityAnalyzed = true := by
  refine ⟨?_, ?_, ?_⟩
  · exact (C8_untriggered_orders_regress c8Env c8Buy c8Index rfl).1 rfl
      (by norm_num [c8Buy, c8Index, Index.getCurrentPrice, Asset.getValue])
  · exact (C8_untriggered_orders_regress c8Env c8Sell c8Index rfl).2.1 rfl
      (by norm_num [c8Sell, c8Buy, c8Index, Index.getCurrentPrice, Asset.getValue])
  · exact (C8_untriggered_orders_regress c8Env c8BuyEq c8Index rfl).2.2 rfl
      (by norm_num [c8BuyEq, c8Buy, c8Index, Index.getCurrentPrice, Asset.getValue])

/-- C7: a cancel whose target (resolved by position id) is still `pending`
in a queue removes the target from the queue, marks it `canceled`, and
marks the cancel instruction `filled` without any venue call; a cancel
whose target is `processing` invokes the venue's cancel endpoint and
applies its reported partial-fill percentage and loss to the target
before marking it `canceled` and the cancel instruction `filled`. -/
theorem C7_cancel_protocol (env : CancelEnv) (s : QueueManager) (order target : Order)
    (loc : OrderLoc)
    (hfind : s.findOrderWithLoc order.positionId = some (loc, target)) :
    (∀ t i, target.status = .pending → loc = .inQueue t i →
      (processCancelOrder env s order).state = (s.removeOrderByPositionId order.positionId).1 ∧
      (processCancelOrder env s order).target.map Order.status = some .canceled ∧
      (processCancelOrder env s order).order.status = .filled ∧
      (processCancelOrder env s order).venueCancelCalled = false) ∧
    (∀ idx res, target.status = .processing → env.indices target.indexId = some idx →
      env.venueCancel = .ok res →
      (processCancelOrder env s order).venueCancelCalled = true ∧
      (processCancelOrder env s order).target.map Order.status = some .canceled ∧
      (processCancelOrder env s order).target.map Order.fillPercentage = some res.fillPercentage ∧
      (processCancelOrder env s order).target.map Order.loss = some res.loss ∧
      (processCancelOrder env s order).order.status = .filled ∧
      (processCancelOrder env s order).state =
        s.setAt loc (target.updateStatus .canceled
          ⟨some res.fillPercentage, some res.loss,
            some (.canceledWithVenue res.fillPercentage res.loss)⟩)) := by
  constructor
  · intro t i hpending hloc
    have hc : target.isComplete = false := by simp only [Order.isComplete, hpending]
    simp [processCancelOrder, hfind, hc, hpending, hloc, Order.updateStatus]
  · intro idx res hproc hidx hvenue
    have hc : target.isComplete = false := by simp only [Order.isComplete, hproc]
    have hnp : ¬ target.status = OrderStatus.pending := by simp [hproc]
    simp [processCancelOrder, hfind, hc, hnp, hproc, hidx, hvenue, Order.updateStatus]

/-- C7 witness: the two concrete scenarios — canceling the pending buy
queued at position `pos`, and canceling the processing buy held in the
processing buffer, with the venue reporting a 20% fill and loss 3. -/
theorem C7_cancel_protocol_witness :
    ((processCancelOrder c7Env c7State c7Cancel).state =
        (c7State.removeOrderByPositionId c7Cancel.positionId).1 ∧
      (processCancelOrder c7Env c7State c7Cancel).target.map Order.status = some .canceled ∧
      (processCancelOrder c7Env c7State c7Cancel).order.status = .filled ∧
      (processCancelOrder c7Env c7State c7Cancel).venueCancelCalled = false) ∧
    ((processCancelOrder c7Env c7StateP c7Cancel).venueCancelCalled = true ∧
      (processCancelOrder c7Env c7StateP c7Cancel).target.map Order.status = some .canceled ∧
      (processCancelOrder c7Env c7StateP c7Cancel).target.map Order.fillPercentage = some (20 : ℚ) ∧
      (processCancelOrder c7Env c7StateP c7Cancel).target.map Order.loss = some (3 : ℚ) ∧
      (processCancelOrder c7Env c7StateP c7Cancel).order.status = .filled ∧
      (processCancelOrder c7Env c7StateP c7Cancel).state =
        c7StateP.setAt (.inProcessing .buy 0) (c7TargetP.updateStatus .canceled
          ⟨some 20, some 3, some (.canceledWithVenue 20 3)⟩)) :=
  ⟨(C7_cancel_protocol c7Env c7State c7Cancel c7Target (.inQueue .buy 0) (by decide)).1
      .buy 0 (by decide) rfl,
    (C7_cancel_protocol c7Env c7StateP c7Cancel c7TargetP (.inProcessing .buy 0) (by decide)).2
      ⟨"i", []⟩ ⟨20, 3⟩ (by decide) rfl rfl⟩

set_option maxRecDepth 100000 in
/-- C3 counterexample: with 150 queued buys, an empty sell queue and
window capacity 100, the first no-estimator tick admits only 50 orders
(half of the remaining capacity goes to buys and the sell share is not
reclaimed), leaving 100 queued — not 100 admitted and 50 queued as
claimed. -/
theorem C3_first_tick_admits_50_not_100 :
    scenarioCTick1.batch.length = 50 ∧
    scenarioCTick1.state.queues.buy.length = 100 ∧
    ¬(scenarioCTick1.batch.length = 100 ∧ scenarioCTick1.state.queues.buy.length = 50) := by
  decide

set_option maxRecDepth 100000 in
/-- C3 amended: under the no-estimator fallback — which gives half the
remaining capacity to buys (oldest first) and the remainder to sells
(oldest first) without reclaiming the unused sell share — the first tick
admits exactly 50 of the 150 buys leaving 100 queued; after each window
rollover the next tick admits 50 more, so the queue drains after three
ticks, not two. -/
theorem C3_fallback_drains_in_three_ticks :
    scenarioCTick1.batch.length = 50 ∧ scenarioCTick1.state.queues.buy.length = 100 ∧
    scenarioCTick2.batch.length = 50 ∧ scenarioCTick2.state.queues.buy.length = 50 ∧
    scenarioCTick3.batch.length = 50 ∧ scenarioCTick3.state.queues.buy.length = 0 := by
  decide

/-! ### Liquidity-estimator lemmas -/

/-- The depth walk accumulates exactly `min (carried + total depth) target`
when the carried quantity has not yet reached the target and all level
quantities are nonnegative. -/
lemma walkFill_fst (levels : List BookLevel) (target : ℚ) :
    ∀ fillable cost : ℚ, (∀ l ∈ levels, 0 ≤ l.2) → fillable ≤ target →
      (walkFill levels target fillable cost).1
        = min (fillable + (levels.map Prod.snd).sum) target := by
  induction levels with
  | nil =>
    intro fillable cost _ hf
    simp [walkFill, min_eq_left hf]
  | cons l rest ih =>
    intro fillable cost hq hf
    obtain ⟨price, qty⟩ := l
    have hrest : ∀ l ∈ rest, (0 : ℚ) ≤ l.2 := fun l hl => hq l (List.mem_cons_of_mem _ hl)
    have hS : (0 : ℚ) ≤ (rest.map Prod.snd).sum := by
      refine List.sum_nonneg ?_
      intro x hx
      obtain ⟨p, hmem, rfl⟩ := List.mem_map.1 hx
      exact hrest _ hmem
    by_cases hc : target ≤ fillable + qty
    · simp only [walkFill, if_pos hc, List.map_cons, List.sum_cons]
      rw [min_eq_right (by linarith)]
    · simp only [walkFill, if_neg hc, List.map_cons, List.sum_cons]
      rw [ih (fillable + qty) _ hrest (by linarith), add_assoc]

/-- Nonnegativity of the computed per-asset notional. -/
lemma assetNotional_nonneg (currentPrice quantity targetPrice : ℚ) (asset : Asset)
    (h0 : 0 ≤ currentPrice) (h1 : 0 ≤ quantity) (h2 : 0 ≤ targetPrice)
    (h3 : 0 ≤ asset.quantity) (h4 : 0 ≤ asset.currentPrice) :
    0 ≤ assetNotional currentPrice quantity targetPrice asset :=
  mul_nonneg (mul_nonneg (div_nonneg (mul_nonneg h3 h4) h0) h1) h2

/-- A per-asset analysis computed from nonnegative data has a fillable
percentage between 0 and 100. -/
lemma analyzeAsset_percent_bounds (books : String → OrderBook) (side : OrderType)
    (currentPrice quantity targetPrice : ℚ) (asset : Asset)
    (h0 : 0 ≤ currentPrice) (h1 : 0 ≤ quantity) (h2 : 0 ≤ targetPrice)
    (h3 : 0 ≤ asset.quantity) (h4 : 0 ≤ asset.currentPrice)
    (hb : ∀ l ∈ (books asset.id).bids, (0 : ℚ) ≤ l.2)
    (ha : ∀ l ∈ (books asset.id).asks, (0 : ℚ) ≤ l.2) :
    0 ≤ (analyzeAsset books side currentPrice quantity targetPrice asset).fillablePercent ∧
    (analyzeAsset books side currentPrice quantity targetPrice asset).fillablePercent ≤ 100 := by
  have hnot : 0 ≤ assetNotional currentPrice quantity targetPrice asset :=
    assetNotional_nonneg currentPrice quantity targetPrice asset h0 h1 h2 h3 h4
  have ht : 0 ≤ assetNotional currentPrice quantity targetPrice asset / asset.currentPrice :=
    div_nonneg hnot h4
  by_cases hskip : assetNotional currentPrice quantity targetPrice asset < MIN_ASSET_PURCHASE
  · simp [analyzeAsset, hskip]
  · have hlev : ∀ l ∈ (if side = .sell then (books asset.id).bids else (books asset.id).asks),
        (0 : ℚ) ≤ l.2 := by
      split
      · exact hb
      · exact ha
    simp only [analyzeAsset, if_neg hskip]
    set t := assetNotional currentPrice quantity targetPrice asset / asset.currentPrice with hdef
    set levels := if side = .sell then (books asset.id).bids else (books asset.id).asks
    have hwalk := walkFill_fst levels t 0 0 hlev ht
    simp only [zero_add] at hwalk
    have hS : (0 : ℚ) ≤ (levels.map Prod.snd).sum := by
      refine List.sum_nonneg ?_
      intro x hx
      obtain ⟨p, hmem, rfl⟩ := List.mem_map.1 hx
      exact hlev _ hmem
    rcases eq_or_lt_of_le ht with hzero | hpos
    · constructor
      · simp [hwalk, ← hzero]
      · simp [hwalk, ← hzero]
    · have hmin0 : 0 ≤ min (levels.map Prod.snd).sum t := le_min hS ht
      have hq1 : min (levels.map Prod.snd).sum t / t ≤ 1 :=
        (div_le_one hpos).2 (min_le_right _ _)
      constructor
      · simp only [hwalk]
        positivity
      · simp only [hwalk]
        nlinarith [hq1]

/-- The fillable percentage after one step of the worst-asset reduce. -/
lemma worstStep_percent (w : WorstAsset) (a : AssetAnalysis) :
    (worstStep w a).fillablePercent =
      if a.skip then w.fillablePercent else min w.fillablePercent a.fillablePercent := by
  unfold worstStep
  split_ifs with h1 h2
  · rfl
  · exact (min_eq_right h2.le).symm
  · exact (min_eq_left (le_of_not_lt h2)).symm

/-- The worst-asset reduce computes a running minimum over the
non-skipped fillable percentages. -/
lemma foldl_worstStep_percent (l : List AssetAnalysis) :
    ∀ w : WorstAsset, (l.foldl worstStep w).fillablePercent
      = ((l.filter fun a => !a.skip).map AssetAnalysis.fillablePercent).foldl min
          w.fillablePercent := by
  induction l with
  | nil => intro w; rfl
  | cons a l ih =>
    intro w
    by_cases hs : a.skip
    · have hstep : worstStep w a = w := by simp [worstStep, hs]
      simp [List.foldl_cons, List.filter_cons, hs, hstep, ih]
    · rw [List.foldl_cons, ih (worstStep w a)]
      simp [List.filter_cons, hs, worstStep_percent]

/-- Folding `min` only lowers the initial value. -/
lemma foldl_min_le_init (l : List ℚ) : ∀ i : ℚ, l.foldl min i ≤ i := by
  induction l with
  | nil => intro i; simp
  | cons p l ih => intro i; exact le_trans (ih (min i p)) (min_le_left _ _)

/-- Folding `min` over a nonempty list equals `min` of the initial value
and the list minimum. -/
lemma foldl_min_minimumOr100 : ∀ (l : List ℚ), l ≠ [] → ∀ i : ℚ,
    l.foldl min i = min i (minimumOr100 l)
  | [], h => absurd rfl h
  | [p], _ => by intro i; simp [minimumOr100]
  | p :: q :: ps, _ => by
    intro i
    have hrec := foldl_min_minimumOr100 (q :: ps) (by simp) (min i p)
    simp only [List.foldl_cons] at hrec ⊢
    rw [hrec, minimumOr100, min_assoc]

/-- The list minimum is at most 100 when every element is. -/
lemma minimumOr100_le_100 : ∀ l : List ℚ, (∀ x ∈ l, x ≤ 100) → minimumOr100 l ≤ 100
  | [], _ => by simp [minimumOr100]
  | [p], h => by simpa [minimumOr100] using h p (List.mem_singleton_self p)
  | p :: q :: ps, h => by
    have hrec := minimumOr100_le_100 (q :: ps) fun x hx => h x (List.mem_cons_of_mem _ hx)
    simp only [minimumOr100]
    exact le_trans (min_le_right _ _) hrec

/-- Mapping over non-skipped entries is the same as filter-mapping with a
skip guard. -/
lemma filterMap_skip (l : List AssetAnalysis) (g : AssetAnalysis → AssetOrder) :
    l.filterMap (fun a => if a.skip then none else some (g a))
      = (l.filter fun a => !a.skip).map g := by
  induction l with
  | nil => rfl
  | cons a l ih => by_cases hs : a.skip <;> simp [List.filterMap_cons, List.filter_cons, hs, ih]

/-- The basket price is nonnegative when asset data is. -/
lemma getCurrentPrice_nonneg (index : Index)
    (h : ∀ a ∈ index.assets, 0 ≤ a.quantity ∧ 0 ≤ a.currentPrice) :
    0 ≤ index.getCurrentPrice := by
  unfold Index.getCurrentPrice
  have : ∀ (l : List Asset) (i : ℚ), 0 ≤ i → (∀ a ∈ l, 0 ≤ a.quantity ∧ 0 ≤ a.currentPrice) →
      0 ≤ l.foldl (fun total a => total + a.getValue) i := by
    intro l
    induction l with
    | nil => intro i hi _; simpa using hi
    | cons a l ih =>
      intro i hi hl
      simp only [List.foldl_cons]
      refine ih _ ?_ fun b hb => hl b (List.mem_cons_of_mem _ hb)
      have := hl a (List.mem_cons_self _ _)
      have hv : 0 ≤ a.getValue := mul_nonneg this.1 this.2
      linarith
  exact this index.assets 0 le_rfl h

/-- C5: the basket-level fillable percentage is the minimum of the
per-asset fillable percentages over non-excluded (non-skipped) assets —
100 when there are none — and every non-excluded asset's planned
execution quantity is its per-asset target quantity scaled by that
basket-level percentage over 100. -/
theorem C5_worst_asset_min_and_uniform_scaling (books : String → OrderBook) (order : Order)
    (index : Index) (side : OrderType)
    (h0 : 0 ≤ order.quantity) (h1 : 0 ≤ order.indexPrice)
    (h2 : ∀ a ∈ index.assets, 0 ≤ a.quantity ∧ 0 ≤ a.currentPrice)
    (h3 : ∀ assetId, (∀ l ∈ (books assetId).bids, (0 : ℚ) ≤ l.2) ∧
      (∀ l ∈ (books assetId).asks, (0 : ℚ) ≤ l.2)) :
    (analyzeOrderLiquidity books order index side).fillablePercent
      = minimumOr100
          (((analyzeOrderLiquidity books order index side).assetAnalysis.filter
              fun a => !a.skip).map AssetAnalysis.fillablePercent) ∧
    (analyzeOrderLiquidity books order index side).assetOrders
      = ((analyzeOrderLiquidity books order index side).assetAnalysis.filter
          fun a => !a.skip).map fun a =>
            ⟨a.assetId,
              a.targetQuantity *
                ((analyzeOrderLiquidity books order index side).fillablePercent / 100),
              a.currentPrice, side⟩ := by
  have hcp : 0 ≤ index.getCurrentPrice := getCurrentPrice_nonneg index h2
  have hbound : ∀ x ∈ (((index.assets.map
        (analyzeAsset books side index.getCurrentPrice order.quantity
          order.indexPrice)).filter fun a => !a.skip).map AssetAnalysis.fillablePercent),
      x ≤ 100 := by
    intro x hx
    obtain ⟨a, haf, rfl⟩ := List.mem_map.1 hx
    have hal := List.mem_of_mem_filter haf
    obtain ⟨asset, hassetmem, rfl⟩ := List.mem_map.1 hal
    exact (analyzeAsset_percent_bounds books side _ _ _ asset hcp h0 h1
      (h2 asset hassetmem).1 (h2 asset hassetmem).2 (h3 asset.id).1 (h3 asset.id).2).2
  constructor
  · simp only [analyzeOrderLiquidity, worstOf]
    rw [foldl_worstStep_percent]
    by_cases hnil : (((index.assets.map
        (analyzeAsset books side index.getCurrentPrice order.quantity
          order.indexPrice)).filter fun a => !a.skip).map AssetAnalysis.fillablePercent) = []
    · simp [hnil, minimumOr100]
    · rw [foldl_min_minimumOr100 _ hnil 100]
      have hle := minimumOr100_le_100 _ hbound
      rw [min_eq_right hle, min_eq_right hle]
  · simp only [analyzeOrderLiquidity]
    exact filterMap_skip _ _

/-- C5 witness: the concrete one-asset basket and order of the
fill-percentage evaluation; the analysis has one non-skipped asset with
100% fillable, and the plan scales its target quantity of 10 by 100%. -/
theorem C5_worst_asset_min_and_uniform_scaling_witness :
    (analyzeOrderLiquidity c2Books c2Order c2Index .buy).fillablePercent
      = minimumOr100
          (((analyzeOrderLiquidity c2Books c2Order c2Index .buy).assetAnalysis.filter
              fun a => !a.skip).map AssetAnalysis.fillablePercent) ∧
    (analyzeOrderLiquidity c2Books c2Order c2Index .buy).assetOrders
      = ((analyzeOrderLiquidity c2Books c2Order c2Index .buy).assetAnalysis.filter
          fun a => !a.skip).map fun a =>
            ⟨a.assetId,
              a.targetQuantity *
                ((analyzeOrderLiquidity c2Books c2Order c2Index .buy).fillablePercent / 100),
              a.currentPrice, .buy⟩ :=
  C5_worst_asset_min_and_uniform_scaling c2Books c2Order c2Index .buy
    (by norm_num [c2Order]) (by norm_num [c2Order])
    (by intro a ha; simp [c2Index] at ha; simp [ha])
    (by intro assetId; constructor <;> (intro l hl; simp [c2Books] at hl; simp [hl]))

/-- The computed notional grows with the requested quantity. -/
lemma assetNotional_mono (currentPrice targetPrice q1 q2 : ℚ) (asset : Asset)
    (h0 : 0 ≤ currentPrice) (h2 : 0 ≤ targetPrice)
    (h3 : 0 ≤ asset.quantity) (h4 : 0 ≤ asset.currentPrice) (hq : q1 ≤ q2) :
    assetNotional currentPrice q1 targetPrice asset
      ≤ assetNotional currentPrice q2 targetPrice asset := by
  unfold assetNotional
  have hw : 0 ≤ asset.getValue / currentPrice :=
    div_nonneg (mul_nonneg h3 h4) h0
  exact mul_le_mul_of_nonneg_right (mul_le_mul_of_nonneg_left hq hw) h2

/-- The skip flag of a per-asset analysis records exactly whether the
computed notional is below the minimum. -/
lemma analyzeAsset_skip (books : String → OrderBook) (side : OrderType)
    (currentPrice quantity targetPrice : ℚ) (asset : Asset) :
    (analyzeAsset books side currentPrice quantity targetPrice asset).skip
      = decide (assetNotional currentPrice quantity targetPrice asset < MIN_ASSET_PURCHASE) := by
  unfold analyzeAsset
  by_cases h : assetNotional currentPrice quantity targetPrice asset < MIN_ASSET_PURCHASE <;>
    simp [h]

/-- A per-asset fillable percentage never increases when the requested
quantity increases. -/
lemma analyzeAsset_percent_mono (books : String → OrderBook) (side : OrderType)
    (currentPrice targetPrice q1 q2 : ℚ) (asset : Asset)
    (h0 : 0 ≤ currentPrice) (h1 : 0 ≤ q1) (hq : q1 ≤ q2) (h2 : 0 ≤ targetPrice)
    (h3 : 0 ≤ asset.quantity) (h4 : 0 ≤ asset.currentPrice)
    (hb : ∀ l ∈ (books asset.id).bids, (0 : ℚ) ≤ l.2)
    (ha : ∀ l ∈ (books asset.id).asks, (0 : ℚ) ≤ l.2) :
    (analyzeAsset books side currentPrice q2 targetPrice asset).fillablePercent
      ≤ (analyzeAsset books side currentPrice q1 targetPrice asset).fillablePercent := by
  have hmono := assetNotional_mono currentPrice targetPrice q1 q2 asset h0 h2 h3 h4 hq
  by_cases hs2 : assetNotional currentPrice q2 targetPrice asset < MIN_ASSET_PURCHASE
  · have hs1 : assetNotional currentPrice q1 targetPrice asset < MIN_ASSET_PURCHASE :=
      lt_of_le_of_lt hmono hs2
    simp [analyzeAsset, hs1, hs2]
  · by_cases hs1 : assetNotional currentPrice q1 targetPrice asset < MIN_ASSET_PURCHASE
    · have h100 := (analyzeAsset_percent_bounds books side currentPrice q2 targetPrice asset
        h0 (le_trans h1 hq) h2 h3 h4 hb ha).2
      calc (analyzeAsset books side currentPrice q2 targetPrice asset).fillablePercent
          ≤ 100 := h100
        _ = (analyzeAsset books side currentPrice q1 targetPrice asset).fillablePercent := by
            simp [analyzeAsset, hs1]
    · -- both assets participate in the walk
      have hn1 : (0 : ℚ) < assetNotional currentPrice q1 targetPrice asset := by
        have : MIN_ASSET_PURCHASE ≤ assetNotional currentPrice q1 targetPrice asset :=
          le_of_not_lt hs1
        unfold MIN_ASSET_PURCHASE at this
        linarith
      have hlev : ∀ l ∈ (if side = .sell then (books asset.id).bids else (books asset.id).asks),
          (0 : ℚ) ≤ l.2 := by
        split
        · exact hb
        · exact ha
      have hS : (0 : ℚ) ≤ ((if side = .sell then (books asset.id).bids
          else (books asset.id).asks).map Prod.snd).sum := by
        refine List.sum_nonneg ?_
        intro x hx
        obtain ⟨p, hmem, rfl⟩ := List.mem_map.1 hx
        exact hlev _ hmem
      simp only [analyzeAsset, if_neg hs1, if_neg hs2]
      rcases eq_or_lt_of_le h4 with hzero | hpos
      · rw [show assetNotional currentPrice q1 targetPrice asset / asset.currentPrice = 0 by
            rw [← hzero, div_zero],
          show assetNotional currentPrice q2 targetPrice asset / asset.currentPrice = 0 by
            rw [← hzero, div_zero]]
      · have ht1 : (0 : ℚ) < assetNotional currentPrice q1 targetPrice asset / asset.currentPrice :=
          div_pos hn1 hpos
        have ht2 : (0 : ℚ) < assetNotional currentPrice q2 targetPrice asset / asset.currentPrice :=
          lt_of_lt_of_le ht1 ((div_le_div_iff_of_pos_right hpos).2 hmono)
        have ht12 : assetNotional currentPrice q1 targetPrice asset / asset.currentPrice
            ≤ assetNotional currentPrice q2 targetPrice asset / asset.currentPrice :=
          (div_le_div_iff_of_pos_right hpos).2 hmono
        rw [walkFill_fst _ _ 0 0 hlev ht1.le, walkFill_fst _ _ 0 0 hlev ht2.le]
        simp only [zero_add]
        set S := ((if side = .sell then (books asset.id).bids
          else (books asset.id).asks).map Prod.snd).sum
        set t1 := assetNotional currentPrice q1 targetPrice asset / asset.currentPrice
        set t2 := assetNotional currentPrice q2 targetPrice asset / asset.currentPrice
        have hkey : min S t2 / t2 ≤ min S t1 / t1 := by
          rw [div_le_div_iff₀ ht2 ht1]
          rcases le_or_lt S t1 with hS1 | hS1
          · rw [min_eq_left hS1, min_eq_left (le_trans hS1 ht12)]
            exact mul_le_mul_of_nonneg_left ht12 hS
          · rw [min_eq_right hS1.le]
            calc min S t2 * t1 ≤ t2 * t1 :=
                mul_le_mul_of_nonneg_right (min_le_right _ _) ht1.le
              _ = t1 * t2 := mul_comm _ _
        exact mul_le_mul_of_nonneg_right hkey (by norm_num)

/-- The worst-asset reduce is monotone: raising the requested quantity
(and starting from a no-larger accumulator) can only lower the resulting
worst fillable percentage. -/
lemma foldl_worstStep_mono (books : String → OrderBook) (side : OrderType)
    (currentPrice targetPrice q1 q2 : ℚ)
    (h0 : 0 ≤ currentPrice) (h1 : 0 ≤ q1) (hq : q1 ≤ q2) (h2 : 0 ≤ targetPrice)
    (hbooks : ∀ assetId, (∀ l ∈ (books assetId).bids, (0 : ℚ) ≤ l.2) ∧
      (∀ l ∈ (books assetId).asks, (0 : ℚ) ≤ l.2)) :
    ∀ (assets : List Asset) (w1 w2 : WorstAsset),
      w2.fillablePercent ≤ w1.fillablePercent →
      (∀ a ∈ assets, 0 ≤ a.quantity ∧ 0 ≤ a.currentPrice) →
      ((assets.map (analyzeAsset books side currentPrice q2 targetPrice)).foldl
          worstStep w2).fillablePercent
        ≤ ((assets.map (analyzeAsset books side currentPrice q1 targetPrice)).foldl
            worstStep w1).fillablePercent := by
  intro assets
  induction assets with
  | nil => intro w1 w2 hw _; exact hw
  | cons asset rest ih =>
    intro w1 w2 hw hmem
    simp only [List.map_cons, List.foldl_cons]
    refine ih _ _ ?_ fun a ha => hmem a (List.mem_cons_of_mem _ ha)
    have hA := hmem asset (List.mem_cons_self _ _)
    rw [worstStep_percent, worstStep_percent]
    have hmono := assetNotional_mono currentPrice targetPrice q1 q2 asset h0 h2 hA.1 hA.2 hq
    by_cases hs2 : (analyzeAsset books side currentPrice q2 targetPrice asset).skip
    · have hn2 : assetNotional currentPrice q2 targetPrice asset < MIN_ASSET_PURCHASE := by
        rw [analyzeAsset_skip] at hs2
        exact of_decide_eq_true hs2
      have hs1 : (analyzeAsset books side currentPrice q1 targetPrice asset).skip = true := by
        rw [analyzeAsset_skip]
        exact decide_eq_true (lt_of_le_of_lt hmono hn2)
      simp only [hs2, hs1, if_true]
      exact hw
    · by_cases hs1 : (analyzeAsset books side currentPrice q1 targetPrice asset).skip
      · simp only [hs2, hs1, Bool.false_eq_true, if_false, if_true]
        exact le_trans (min_le_left _ _) hw
      · simp only [hs2, hs1, Bool.false_eq_true, if_false]
        exact min_le_min hw (analyzeAsset_percent_mono books side currentPrice targetPrice
          q1 q2 asset h0 h1 hq h2 hA.1 hA.2 (hbooks asset.id).1 (hbooks asset.id).2)

/-- The worst-asset reduce ignores a list of all-skipped analyses. -/
lemma foldl_worstStep_all_skip : ∀ (l : List AssetAnalysis) (w : WorstAsset),
    (∀ a ∈ l, a.skip = true) → l.foldl worstStep w = w
  | [], _, _ => rfl
  | a :: l, w, h => by
    have hstep : worstStep w a = w := by
      simp [worstStep, h a (List.mem_cons_self _ _)]
    rw [List.foldl_cons, hstep]
    exact foldl_worstStep_all_skip l w fun b hb => h b (List.mem_cons_of_mem _ hb)

/-- C9: for a fixed order book and basket, the basket-level fillable
percentage is monotonically non-increasing in the requested target
quantity; and it equals 100 whenever every asset's computed notional is
below the minimum tradable notional `MIN_ASSET_PURCHASE`. -/
theorem C9_fillable_monotone_and_dust_full (books : String → OrderBook) (order : Order)
    (index : Index) (side : OrderType)
    (h1 : 0 ≤ order.indexPrice)
    (h2 : ∀ a ∈ index.assets, 0 ≤ a.quantity ∧ 0 ≤ a.currentPrice)
    (h3 : ∀ assetId, (∀ l ∈ (books assetId).bids, (0 : ℚ) ≤ l.2) ∧
      (∀ l ∈ (books assetId).asks, (0 : ℚ) ≤ l.2)) :
    (∀ q1 q2 : ℚ, 0 ≤ q1 → q1 ≤ q2 →
      (analyzeOrderLiquidity books { order with quantity := q2 } index side).fillablePercent
        ≤ (analyzeOrderLiquidity books { order with quantity := q1 } index side).fillablePercent) ∧
    ((∀ a ∈ index.assets,
        assetNotional index.getCurrentPrice order.quantity order.indexPrice a
          < MIN_ASSET_PURCHASE) →
      (analyzeOrderLiquidity books order index side).fillablePercent = 100) := by
  have hcp : 0 ≤ index.getCurrentPrice := getCurrentPrice_nonneg index h2
  constructor
  · intro q1 q2 hq1 hq12
    simp only [analyzeOrderLiquidity, worstOf]
    exact min_le_min le_rfl
      (foldl_worstStep_mono books side index.getCurrentPrice order.indexPrice q1 q2
        hcp hq1 hq12 h1 h3 index.assets ⟨none, 100⟩ ⟨none, 100⟩ le_rfl h2)
  · intro hall
    simp only [analyzeOrderLiquidity, worstOf]
    rw [foldl_worstStep_all_skip]
    · norm_num
    · intro a ha
      obtain ⟨asset, hmem, rfl⟩ := List.mem_map.1 ha
      rw [analyzeAsset_skip]
      exact decide_eq_true (hall asset hmem)

/-- C9 witness: on the one-asset basket at price 1, raising the requested
quantity from 1 to 2 does not raise the fillable percentage, and a
requested quantity of 1/10 puts the asset's notional below the minimum
so the order is 100% fillable. -/
theorem C9_fillable_monotone_and_dust_full_witness :
    (analyzeOrderLiquidity c2Books { c2Order with quantity := 2 } c2Index .buy).fillablePercent
      ≤ (analyzeOrderLiquidity c2Books { c2Order with quantity := 1 } c2Index .buy).fillablePercent ∧
    (analyzeOrderLiquidity c2Books { c2Order with quantity := 1 / 10 } c2Index
        .buy).fillablePercent = 100 :=
  ⟨(C9_fillable_monotone_and_dust_full c2Books c2Order c2Index .buy
      (by norm_num [c2Order])
      (by intro a ha; simp [c2Index] at ha; simp [ha])
      (by intro assetId; constructor <;> (intro l hl; simp [c2Books] at hl; simp [hl]))).1
      1 2 (by norm_num) (by norm_num),
    (C9_fillable_monotone_and_dust_full c2Books { c2Order with quantity := 1 / 10 } c2Index .buy
      (by norm_num [c2Order])
      (by intro a ha; simp [c2Index] at ha; simp [ha])
      (by intro assetId; constructor <;> (intro l hl; simp [c2Books] at hl; simp [hl]))).2
      (by
        intro a ha
        simp only [c2Index, List.mem_singleton] at ha
        subst ha
        norm_num [assetNotional, Asset.getValue, Index.getCurrentPrice, c2Index, c2Order,
          MIN_ASSET_PURCHASE])⟩

/-! ### Dispatcher lemmas -/

/-- Members of an insertion are the inserted element or old members. -/
lemma mem_insertRanked {x a : RankedOrder} : ∀ {l : List RankedOrder},
    x ∈ insertRanked a l → x = a ∨ x ∈ l
  | [], h => by simpa [insertRanked] using h
  | b :: l, h => by
    by_cases hc : priorityBefore a b
    · simpa [insertRanked, hc] using h
    · simp only [insertRanked, hc, if_false, Bool.false_eq_true, List.mem_cons] at h
      rcases h with h | h
      · exact Or.inr (by simp [h])
      · rcases mem_insertRanked h with h' | h'
        · exact Or.inl h'
        · exact Or.inr (List.mem_cons_of_mem _ h')

/-- Sorting permutes membership (one direction suffices here). -/
lemma mem_sortRanked {x : RankedOrder} : ∀ {l : List RankedOrder}, x ∈ sortRanked l → x ∈ l
  | [], h => by simp [sortRanked] at h
  | a :: l, h => by
    simp only [sortRanked] at h
    rcases mem_insertRanked h with h' | h'
    · simp [h']
    · exact List.mem_cons_of_mem _ (mem_sortRanked h')

/-- Insertion adds one element to the length. -/
lemma length_insertRanked (a : RankedOrder) : ∀ l : List RankedOrder,
    (insertRanked a l).length = l.length + 1
  | [] => rfl
  | b :: l => by
    by_cases hc : priorityBefore a b <;>
      simp [insertRanked, hc, length_insertRanked a l]

/-- Sorting preserves length. -/
lemma length_sortRanked : ∀ l : List RankedOrder, (sortRanked l).length = l.length
  | [] => rfl
  | a :: l => by simp [sortRanked, length_insertRanked, length_sortRanked l]

/-- The prioritizer returns at most `limit` orders. -/
lemma prioritizeOrders_length_le (indices : String → Option Index) (liq : String → ℚ)
    (orders : List (Order × OrderType)) (limit : Nat) :
    (prioritizeOrders indices liq orders limit).length ≤ limit := by
  unfold prioritizeOrders
  split
  · simp
  · exact le_trans (List.length_take_le _ _) le_rfl

/-- Every prioritized order is one of the submitted orders. -/
lemma prioritizeOrders_order_mem (indices : String → Option Index) (liq : String → ℚ)
    (orders : List (Order × OrderType)) (limit : Nat) :
    ∀ po ∈ prioritizeOrders indices liq orders limit, ∃ p ∈ orders, po.order = p.1 := by
  intro po hpo
  unfold prioritizeOrders at hpo
  split at hpo
  · simp at hpo
  · have h1 := List.mem_of_mem_take hpo
    have h2 := mem_sortRanked h1
    have h3 := List.mem_of_mem_filter h2
    obtain ⟨p, hp, rfl⟩ := List.mem_map.1 h3
    refine ⟨p, hp, ?_⟩
    cases h : indices p.1.indexId <;> simp [h]

/-- The buy/sell stage admits at most `remaining` orders. -/
lemma admitBuySell_length_le (s : QueueManager) (analyzer : Option (String → ℚ))
    (indices : String → Option Index) (remaining : Nat) :
    (admitBuySell s analyzer indices remaining).1.length ≤ remaining := by
  unfold admitBuySell
  cases analyzer with
  | some liq =>
    simpa using prioritizeOrders_length_le indices liq _ remaining
  | none =>
    simp only [List.length_append]
    have hb : (s.queues.buy.take (remaining / 2)).length ≤ remaining / 2 :=
      List.length_take_le _ _
    have hs : (s.queues.sell.take
        (remaining - (s.queues.buy.take (remaining / 2)).length)).length
        ≤ remaining - (s.queues.buy.take (remaining / 2)).length :=
      List.length_take_le _ _
    have hhalf : remaining / 2 ≤ remaining := Nat.div_le_self _ _
    omega

/-- Every order admitted by the buy/sell stage comes from the buy or sell
queue, hence is a buy or sell order in a well-typed state. -/
lemma admitBuySell_types (s : QueueManager) (analyzer : Option (String → ℚ))
    (indices : String → Option Index) (remaining : Nat)
    (hbuy : ∀ o ∈ s.queues.buy, o.type = OrderType.buy)
    (hsell : ∀ o ∈ s.queues.sell, o.type = OrderType.sell) :
    ∀ o ∈ (admitBuySell s analyzer indices remaining).1,
      o.type = OrderType.buy ∨ o.type = OrderType.sell := by
  intro o ho
  unfold admitBuySell at ho
  cases analyzer with
  | some liq =>
    simp only [List.mem_map] at ho
    obtain ⟨po, hpo, rfl⟩ := ho
    obtain ⟨p, hp, hord⟩ := prioritizeOrders_order_mem indices liq _ remaining po hpo
    rw [hord]
    rcases List.mem_append.1 hp with h | h
    · obtain ⟨b, hb, rfl⟩ := List.mem_map.1 h
      exact Or.inl (hbuy b hb)
    · obtain ⟨b, hb, rfl⟩ := List.mem_map.1 h
      exact Or.inr (hsell b hb)
  | none =>
    rcases List.mem_append.1 ho with h | h
    · exact Or.inl (hbuy o (List.mem_of_mem_take h))
    · exact Or.inr (hsell o (List.mem_of_mem_take h))

/-- Moving a prioritized order between buffers leaves the window counter
unchanged. -/
lemma movePrioritized_count (s : QueueManager) (po : RankedOrder) :
    (movePrioritized s po).ordersInCurrentBatch = s.ordersInCurrentBatch := by
  unfold movePrioritized
  split <;> rfl

/-- Folding buffer moves leaves the window counter unchanged. -/
lemma foldl_movePrioritized_count (l : List RankedOrder) :
    ∀ s : QueueManager, (l.foldl movePrioritized s).ordersInCurrentBatch
      = s.ordersInCurrentBatch := by
  induction l with
  | nil => intro s; rfl
  | cons a l ih => intro s; rw [List.foldl_cons, ih, movePrioritized_count]

/-- The buy/sell stage leaves the window counter unchanged. -/
lemma admitBuySell_count (s : QueueManager) (analyzer : Option (String → ℚ))
    (indices : String → Option Index) (remaining : Nat) :
    (admitBuySell s analyzer indices remaining).2.ordersInCurrentBatch
      = s.ordersInCurrentBatch := by
  unfold admitBuySell
  cases analyzer with
  | some liq => simp [foldl_movePrioritized_count]
  | none => rfl

/-- The admission stage: the window counter stays within `RATE_LIMIT`,
and the batch decomposes into cancels, then rebalances, then buys/sells,
with each later segment nonempty only if the earlier queues were fully
drained. -/
lemma getNextBatchAdmit_spec (s : QueueManager) (analyzer : Option (String → ℚ))
    (indices : String → Option Index)
    (hwt : QueuesWellTyped s) (hcount : s.ordersInCurrentBatch ≤ RATE_LIMIT) :
    (getNextBatchAdmit s analyzer indices).state.ordersInCurrentBatch ≤ RATE_LIMIT ∧
    ∃ cs rs bs,
      (getNextBatchAdmit s analyzer indices).batch = cs ++ rs ++ bs ∧
      (∀ o ∈ cs, o.type = OrderType.cancel) ∧
      (∀ o ∈ rs, o.type = OrderType.rebalance) ∧
      (∀ o ∈ bs, o.type = OrderType.buy ∨ o.type = OrderType.sell) ∧
      (rs ≠ [] → cs = s.queues.cancel) ∧
      (bs ≠ [] → cs = s.queues.cancel ∧ rs = s.queues.rebalance) := by
  obtain ⟨hbuy, hsell, hcancel, hreb⟩ := hwt
  have hclen : (s.queues.cancel.take (RATE_LIMIT - s.ordersInCurrentBatch)).length
      ≤ RATE_LIMIT - s.ordersInCurrentBatch := List.length_take_le _ _
  have hctype : ∀ o ∈ s.queues.cancel.take (RATE_LIMIT - s.ordersInCurrentBatch),
      o.type = OrderType.cancel := fun o ho => hcancel o (List.mem_of_mem_take ho)
  simp only [getNextBatchAdmit]
  by_cases h1 : RATE_LIMIT - s.ordersInCurrentBatch -
      (s.queues.cancel.take (RATE_LIMIT - s.ordersInCurrentBatch)).length = 0
  · rw [if_pos h1]
    refine ⟨by dsimp only; omega, s.queues.cancel.take (RATE_LIMIT - s.ordersInCurrentBatch),
      [], [], by simp, hctype, by simp, by simp, by simp, by simp⟩
  · rw [if_neg h1]
    have hfullc : s.queues.cancel.take (RATE_LIMIT - s.ordersInCurrentBatch)
        = s.queues.cancel := by
      rcases Nat.le_total s.queues.cancel.length (RATE_LIMIT - s.ordersInCurrentBatch) with
        hle | hge
      · exact List.take_of_length_le hle
      · exfalso
        apply h1
        have hlen : (s.queues.cancel.take (RATE_LIMIT - s.ordersInCurrentBatch)).length
            = min (RATE_LIMIT - s.ordersInCurrentBatch) s.queues.cancel.length :=
          List.length_take _ _
        omega
    have hrlen : ((s.queues.rebalance.take (RATE_LIMIT - s.ordersInCurrentBatch -
        (s.queues.cancel.take (RATE_LIMIT - s.ordersInCurrentBatch)).length))).length
        ≤ RATE_LIMIT - s.ordersInCurrentBatch -
          (s.queues.cancel.take (RATE_LIMIT - s.ordersInCurrentBatch)).length :=
      List.length_take_le _ _
    have hrtype : ∀ o ∈ s.queues.rebalance.take (RATE_LIMIT - s.ordersInCurrentBatch -
        (s.queues.cancel.take (RATE_LIMIT - s.ordersInCurrentBatch)).length),
        o.type = OrderType.rebalance := fun o ho => hreb o (List.mem_of_mem_take ho)
    by_cases h2 : RATE_LIMIT - s.ordersInCurrentBatch -
        (s.queues.cancel.take (RATE_LIMIT - s.ordersInCurrentBatch)).length -
        (s.queues.rebalance.take (RATE_LIMIT - s.ordersInCurrentBatch -
          (s.queues.cancel.take (RATE_LIMIT - s.ordersInCurrentBatch)).length)).length = 0
    · rw [if_pos h2]
      refine ⟨by dsimp only; omega, s.queues.cancel.take (RATE_LIMIT - s.ordersInCurrentBatch),
        s.queues.rebalance.take (RATE_LIMIT - s.ordersInCurrentBatch -
          (s.queues.cancel.take (RATE_LIMIT - s.ordersInCurrentBatch)).length), [],
        by simp, hctype, hrtype, by simp, fun _ => hfullc, by simp⟩
    · rw [if_neg h2]
      have hfullr : s.queues.rebalance.take (RATE_LIMIT - s.ordersInCurrentBatch -
          (s.queues.cancel.take (RATE_LIMIT - s.ordersInCurrentBatch)).length)
          = s.queues.rebalance := by
        rcases Nat.le_total s.queues.rebalance.length (RATE_LIMIT - s.ordersInCurrentBatch -
            (s.queues.cancel.take (RATE_LIMIT - s.ordersInCurrentBatch)).length) with hle | hge
        · exact List.take_of_length_le hle
        · exfalso
          apply h2
          have hlen : (s.queues.rebalance.take (RATE_LIMIT - s.ordersInCurrentBatch -
              (s.queues.cancel.take (RATE_LIMIT - s.ordersInCurrentBatch)).length)).length
              = min (RATE_LIMIT - s.ordersInCurrentBatch -
                  (s.queues.cancel.take (RATE_LIMIT - s.ordersInCurrentBatch)).length)
                s.queues.rebalance.length :=
            List.length_take _ _
          omega
      have hbslen := admitBuySell_length_le
        { s with
          queues :=
            { s.queues with
              cancel := s.queues.cancel.drop (RATE_LIMIT - s.ordersInCurrentBatch)
              rebalance := s.queues.rebalance.drop (RATE_LIMIT - s.ordersInCurrentBatch -
                (s.queues.cancel.take (RATE_LIMIT - s.ordersInCurrentBatch)).length) }
          processing :=
            { s.processing with
              cancel := s.processing.cancel ++
                s.queues.cancel.take (RATE_LIMIT - s.ordersInCurrentBatch)
              rebalance := s.processing.rebalance ++
                s.queues.rebalance.take (RATE_LIMIT - s.ordersInCurrentBatch -
                  (s.queues.cancel.take (RATE_LIMIT - s.ordersInCurrentBatch)).length) } }
        analyzer indices
        (RATE_LIMIT - s.ordersInCurrentBatch -
          (s.queues.cancel.take (RATE_LIMIT - s.ordersInCurrentBatch)).length -
          (s.queues.rebalance.take (RATE_LIMIT - s.ordersInCurrentBatch -
            (s.queues.cancel.take (RATE_LIMIT - s.ordersInCurrentBatch)).length)).length)
      have hbstypes := admitBuySell_types
        { s with
          queues :=
            { s.queues with
              cancel := s.queues.cancel.drop (RATE_LIMIT - s.ordersInCurrentBatch)
              rebalance := s.queues.rebalance.drop (RATE_LIMIT - s.ordersInCurrentBatch -
                (s.queues.cancel.take (RATE_LIMIT - s.ordersInCurrentBatch)).length) }
          processing :=
            { s.processing with
              cancel := s.processing.cancel ++
                s.queues.cancel.take (RATE_LIMIT - s.ordersInCurrentBatch)
              rebalance := s.processing.rebalance ++
                s.queues.rebalance.take (RATE_LIMIT - s.ordersInCurrentBatch -
                  (s.queues.cancel.take (RATE_LIMIT - s.ordersInCurrentBatch)).length) } }
        analyzer indices
        (RATE_LIMIT - s.ordersInCurrentBatch -
          (s.queues.cancel.take (RATE_LIMIT - s.ordersInCurrentBatch)).length -
          (s.queues.rebalance.take (RATE_LIMIT - s.ordersInCurrentBatch -
            (s.queues.cancel.take (RATE_LIMIT - s.ordersInCurrentBatch)).length)).length)
        hbuy hsell
      constructor
      · dsimp only
        dsimp only at hbslen
        rw [admitBuySell_count]
        simp only [List.length_append]
        omega
      · exact ⟨s.queues.cancel.take (RATE_LIMIT - s.ordersInCurrentBatch),
          s.queues.rebalance.take (RATE_LIMIT - s.ordersInCurrentBatch -
            (s.queues.cancel.take (RATE_LIMIT - s.ordersInCurrentBatch)).length), _,
          rfl, hctype, hrtype, hbstypes, fun _ => hfullc, fun _ => ⟨hfullc, hfullr⟩⟩

/-- C1: a dispatcher tick never pushes the number of instructions
admitted within the current (un-elapsed) rate window above `RATE_LIMIT`,
and the returned batch is all queued cancels first, then rebalances, then
buys/sells: a rebalance is admitted only once every queued cancel is, and
a buy/sell only once every queued cancel and rebalance is (capacity
permitting). -/
theorem C1_rate_cap_and_priority_order (s : QueueManager) (analyzer : Option (String → ℚ))
    (indices : String → Option Index) (now : Nat)
    (hwt : QueuesWellTyped s) (hcount : s.ordersInCurrentBatch ≤ RATE_LIMIT) :
    (s.getNextBatch analyzer indices now).state.ordersInCurrentBatch ≤ RATE_LIMIT ∧
    ∃ cs rs bs,
      (s.getNextBatch analyzer indices now).batch = cs ++ rs ++ bs ∧
      (∀ o ∈ cs, o.type = OrderType.cancel) ∧
      (∀ o ∈ rs, o.type = OrderType.rebalance) ∧
      (∀ o ∈ bs, o.type = OrderType.buy ∨ o.type = OrderType.sell) ∧
      (rs ≠ [] → cs = s.queues.cancel) ∧
      (bs ≠ [] → cs = s.queues.cancel ∧ rs = s.queues.rebalance) := by
  unfold QueueManager.getNextBatch
  by_cases hproc : s.isProcessing = true
  · rw [if_pos hproc]
    exact ⟨hcount, [], [], [], by simp, by simp, by simp, by simp, by simp, by simp⟩
  · rw [if_neg hproc]
    by_cases hrate : now - s.lastBatchTime < RATE_LIMIT_WINDOW_MS ∧
        RATE_LIMIT ≤ s.ordersInCurrentBatch
    · rw [if_pos hrate]
      exact ⟨hcount, [], [], [], by simp, by simp, by simp, by simp, by simp, by simp⟩
    · rw [if_neg hrate]
      by_cases hreset : RATE_LIMIT_WINDOW_MS ≤ now - s.lastBatchTime
      · rw [if_pos hreset]
        exact getNextBatchAdmit_spec _ analyzer indices
          ⟨hwt.1, hwt.2.1, hwt.2.2.1, hwt.2.2.2⟩ (Nat.zero_le _)
      · rw [if_neg hreset]
        exact getNextBatchAdmit_spec s analyzer indices hwt hcount

/-- C1 witness: the concrete queue state holding one pending buy, ticked
at time 0 with no analyzer. -/
theorem C1_rate_cap_and_priority_order_witness :
    (c7State.getNextBatch none noIndices 0).state.ordersInCurrentBatch ≤ RATE_LIMIT ∧
    ∃ cs rs bs,
      (c7State.getNextBatch none noIndices 0).batch = cs ++ rs ++ bs ∧
      (∀ o ∈ cs, o.type = OrderType.cancel) ∧
      (∀ o ∈ rs, o.type = OrderType.rebalance) ∧
      (∀ o ∈ bs, o.type = OrderType.buy ∨ o.type = OrderType.sell) ∧
      (rs ≠ [] → cs = c7State.queues.cancel) ∧
      (bs ≠ [] → cs = c7State.queues.cancel ∧ rs = c7State.queues.rebalance) :=
  C1_rate_cap_and_priority_order c7State none noIndices 0
    ⟨by decide, by decide, by decide, by decide⟩ (by decide)

end EtfSolver
